import Mathlib

/-!
Verification development for the startup-support-program crawl/extract/enrich
pipeline (sources: bizinfo and k-startup).  The definitions below are shallow
embeddings of the TypeScript source files:

  - src/lib/llm/extract-target.ts   (LLM response parsing and defaulting)
  - src/lib/crawlers/bizinfo.ts     (date parsing, detail pipeline, upsert)
  - src/lib/crawlers/kstartup.ts    (date parsing, fetch, crawl loop)
  - src/lib/crawlers/utils.ts       (text cleaning, embedded in the DOM part)
  - the Puppeteer capture module    (chunked screenshot loop)
  - the POST /api/process-llm route (batch LLM re-extraction)

JavaScript-specific behaviour (truthiness, JSON.parse, Date construction,
property access on missing keys) is modelled explicitly so that the embedded
functions follow the source line by line.
-/

/-! ## JSON values and JSON.parse

The TypeScript code calls JSON.parse on raw LLM response strings inside a
try/catch.  We model JSON values with a small inductive type; numbers keep
their literal text (only zero-ness matters for JS truthiness downstream).
-/

inductive Json where
  | null
  | bool (b : Bool)
  | num (lit : String)
  | str (s : String)
  | arr (xs : List Json)
  | obj (fields : List (String × Json))

/-- A JSON numeric literal denotes zero iff its mantissa has no nonzero digit. -/
def jsNumIsZero (lit : String) : Bool :=
  (lit.toList.takeWhile (fun c => c ≠ 'e' && c ≠ 'E')).all
    (fun c => !(c.isDigit && c ≠ '0'))

/-- JavaScript truthiness of a JSON value (NaN cannot arise from JSON.parse). -/
def jsTruthy : Json → Bool
  | Json.null => false
  | Json.bool b => b
  | Json.num lit => !jsNumIsZero lit
  | Json.str s => s ≠ ""
  | Json.arr _ => true
  | Json.obj _ => true

/-- JavaScript property access on a parsed JSON value: on objects the last
binding of a duplicated key wins (as JSON.parse builds the object by
overwriting); on any other value the result is undefined, modelled as null
(the code only consumes it through truthiness, where the two coincide). -/
def jsField : Json → String → Json
  | Json.obj fields, key =>
      match fields.reverse.find? (fun p => p.1 = key) with
      | some p => p.2
      | none => Json.null
  | _, _ => Json.null

/-- The JavaScript `a || b` operator on JSON values. -/
def jsOr (a b : Json) : Json := if jsTruthy a then a else b

def isJsonWs (c : Char) : Bool :=
  c = ' ' || c = '\t' || c = '\n' || c = '\r'

def skipWs : List Char → List Char
  | [] => []
  | c :: cs => if isJsonWs c then skipWs cs else c :: cs

def hexVal (c : Char) : Option Nat :=
  if '0' ≤ c ∧ c ≤ '9' then some (c.toNat - 48)
  else if 'a' ≤ c ∧ c ≤ 'f' then some (c.toNat - 87)
  else if 'A' ≤ c ∧ c ≤ 'F' then some (c.toNat - 55)
  else none

/-- Body of a JSON string literal, after the opening quote: ordinary
characters, the JSON escapes, and the rejection of raw control characters. -/
def parseStrChars : List Char → List Char → Option (String × List Char)
  | '"' :: rest, acc => some (String.mk acc.reverse, rest)
  | '\\' :: 'u' :: h1 :: h2 :: h3 :: h4 :: rest, acc =>
      match hexVal h1, hexVal h2, hexVal h3, hexVal h4 with
      | some a, some b, some c, some d =>
          parseStrChars rest (Char.ofNat (((a * 16 + b) * 16 + c) * 16 + d) :: acc)
      | _, _, _, _ => none
  | '\\' :: e :: rest, acc =>
      (match e with
       | '"' => some '"'
       | '\\' => some '\\'
       | '/' => some '/'
       | 'b' => some (Char.ofNat 8)
       | 'f' => some (Char.ofNat 12)
       | 'n' => some '\n'
       | 'r' => some (Char.ofNat 13)
       | 't' => some '\t'
       | _ => none).bind (fun c => parseStrChars rest (c :: acc))
  | c :: rest, acc =>
      if c.toNat < 32 then none else parseStrChars rest (c :: acc)
  | [], _ => none

/-- Splits a leading run of decimal digits. -/
def takeDigitsLead : List Char → (List Char × List Char)
  | [] => ([], [])
  | c :: cs =>
      if c.isDigit then
        let p := takeDigitsLead cs
        (c :: p.1, p.2)
      else ([], c :: cs)

/-- A JSON number literal: optional minus, integer part without a stray
leading zero, optional fraction, optional exponent.  Returns the literal
text and the rest of the input. -/
def parseNumLit (cs : List Char) : Option (String × List Char) :=
  let (negChars, cs1) :=
    match cs with
    | '-' :: r => ([('-' : Char)], r)
    | _ => ([], cs)
  match takeDigitsLead cs1 with
  | ([], _) => none
  | (intDs, r1) =>
    if intDs.length > 1 && intDs.head? = some '0' then none
    else
      let fracRes : Option (List Char × List Char) :=
        match r1 with
        | '.' :: r2 =>
            match takeDigitsLead r2 with
            | ([], _) => none
            | (fds, r3) => some ('.' :: fds, r3)
        | _ => some ([], r1)
      match fracRes with
      | none => none
      | some (fracChars, r4) =>
        let expRes : Option (List Char × List Char) :=
          match r4 with
          | 'e' :: r5 =>
              (match r5 with
               | '+' :: r6 => some (['e', '+'], r6)
               | '-' :: r6 => some (['e', '-'], r6)
               | _ => some (['e'], r5)).bind (fun p =>
                 match takeDigitsLead p.2 with
                 | ([], _) => none
                 | (eds, r7) => some (p.1 ++ eds, r7))
          | 'E' :: r5 =>
              (match r5 with
               | '+' :: r6 => some (['E', '+'], r6)
               | '-' :: r6 => some (['E', '-'], r6)
               | _ => some (['E'], r5)).bind (fun p =>
                 match takeDigitsLead p.2 with
                 | ([], _) => none
                 | (eds, r7) => some (p.1 ++ eds, r7))
          | _ => some ([], r4)
        match expRes with
        | none => none
        | some (expChars, r8) =>
            some (String.mk (negChars ++ intDs ++ fracChars ++ expChars), r8)

mutual

/-- One JSON value, fuel-bounded (nesting consumes fuel). -/
def parseValueF : Nat → List Char → Option (Json × List Char)
  | 0, _ => none
  | Nat.succ fuel, cs =>
    match skipWs cs with
    | 'n' :: 'u' :: 'l' :: 'l' :: r => some (Json.null, r)
    | 't' :: 'r' :: 'u' :: 'e' :: r => some (Json.bool true, r)
    | 'f' :: 'a' :: 'l' :: 's' :: 'e' :: r => some (Json.bool false, r)
    | '"' :: r => (parseStrChars r []).map (fun p => (Json.str p.1, p.2))
    | '[' :: r =>
        (match skipWs r with
         | ']' :: r2 => some (Json.arr [], r2)
         | cs2 => parseArrF fuel cs2 [])
    | '{' :: r =>
        (match skipWs r with
         | '}' :: r2 => some (Json.obj [], r2)
         | cs2 => parseObjF fuel cs2 [])
    | cs' => (parseNumLit cs').map (fun p => (Json.num p.1, p.2))

/-- Remaining items of a nonempty JSON array. -/
def parseArrF : Nat → List Char → List Json → Option (Json × List Char)
  | 0, _, _ => none
  | Nat.succ fuel, cs, acc =>
    match parseValueF fuel cs with
    | none => none
    | some (v, r) =>
      match skipWs r with
      | ',' :: r2 => parseArrF fuel r2 (v :: acc)
      | ']' :: r2 => some (Json.arr (v :: acc).reverse, r2)
      | _ => none

/-- Remaining members of a nonempty JSON object. -/
def parseObjF : Nat → List Char → List (String × Json) → Option (Json × List Char)
  | 0, _, _ => none
  | Nat.succ fuel, cs, acc =>
    match cs with
    | '"' :: r =>
      (match parseStrChars r [] with
       | none => none
       | some (key, r1) =>
         match skipWs r1 with
         | ':' :: r2 =>
           (match parseValueF fuel r2 with
            | none => none
            | some (v, r3) =>
              match skipWs r3 with
              | ',' :: r4 => parseObjF fuel (skipWs r4) ((key, v) :: acc)
              | '}' :: r4 => some (Json.obj ((key, v) :: acc).reverse, r4)
              | _ => none)
         | _ => none)
    | _ => none

end

/-- JSON.parse: whole-input parse; any leftover non-whitespace is an error.
A `none` result models the SyntaxError thrown by JSON.parse. -/
def jsonParse (text : String) : Option Json :=
  let cs := text.toList
  match parseValueF (2 * cs.length + 2) cs with
  | some (v, rest) => if skipWs rest = [] then some v else none
  | none => none

/-! ## LLM response normalisation (src/lib/llm/extract-target.ts)

The structured result record.  The TypeScript interface declares six string
fields; the fields keep their raw JSON values here because the source performs
untyped property access on the parsed value before the `||` defaulting.
-/

structure ApplicationTarget where
  aiSummary : Json
  companyAge : Json
  targetRegion : Json
  targetAge : Json
  targetIndustry : Json
  exclusionDetail : Json

/-- The record built by the catch branch of parseLlmResponse: every field is
the empty string. -/
def emptyTargetRecord : ApplicationTarget :=
  { aiSummary := Json.str "", companyAge := Json.str "",
    targetRegion := Json.str "", targetAge := Json.str "",
    targetIndustry := Json.str "", exclusionDetail := Json.str "" }

/-- parseLlmResponse from extract-target.ts.  On a successful JSON.parse the
six fields are read off with `||` defaults (무관 / 전국 / 전분야 for the four
matching fields, the empty string for aiSummary and exclusionDetail).  If
JSON.parse throws, or the parsed value is null (property access on null throws
inside the same try block), the catch branch returns the all-empty record. -/
def parseLlmResponse (text : String) : ApplicationTarget :=
  match jsonParse text with
  | some Json.null => emptyTargetRecord
  | some parsed =>
      { aiSummary := jsOr (jsField parsed "aiSummary") (Json.str "")
        companyAge := jsOr (jsField parsed "companyAge") (Json.str "무관")
        targetRegion := jsOr (jsField parsed "targetRegion") (Json.str "전국")
        targetAge := jsOr (jsField parsed "targetAge") (Json.str "무관")
        targetIndustry := jsOr (jsField parsed "targetIndustry") (Json.str "전분야")
        exclusionDetail := jsOr (jsField parsed "exclusionDetail") (Json.str "") }
  | none => emptyTargetRecord

/-- extractApplicationTarget from extract-target.ts, with the network call
abstracted: `apiKey` is whether GEMINI_API_KEY is configured, `apiResponse`
is the raw response text of the generation call (`none` models the call
raising).  The function returns null exactly when the key is missing, both
input texts are empty, or the call raised; otherwise it returns the
parseLlmResponse record — including the all-empty record on a JSON parse
failure, since parseLlmResponse never throws. -/
def extractApplicationTarget (apiKey : Bool) (eligibilityText descriptionText : String)
    (apiResponse : Option String) : Option ApplicationTarget :=
  if !apiKey then none
  else if eligibilityText = "" && descriptionText = "" then none
  else match apiResponse with
    | none => none
    | some text => some (parseLlmResponse text)

/-! ## Date parsing (src/lib/crawlers/bizinfo.ts, src/lib/crawlers/kstartup.ts)

A JS Date is modelled by its stored calendar components.  The month field is
the JS 0-based month index (new Date(y, m, d, ...) receives month - 1, and
new Date("YYYY-MM-DD") stores month - 1).  The JS range normalisation of
out-of-range components is not modelled: every date the claims touch has
in-range components, and the time-of-day components at stake are unaffected
by it.
-/

structure JsDate where
  year : Nat
  monthIndex : Nat
  day : Nat
  hour : Nat
  minute : Nat
  second : Nat
deriving Repr, DecidableEq

/-- Takes exactly n decimal digits, or fails. -/
def takeExactDigits : Nat → List Char → Option (List Char × List Char)
  | 0, cs => some ([], cs)
  | Nat.succ _, [] => none
  | Nat.succ n, c :: cs =>
      if c.isDigit then (takeExactDigits n cs).map (fun p => (c :: p.1, p.2))
      else none

def digitsToNat (ds : List Char) : Nat :=
  ds.foldl (fun acc c => acc * 10 + (c.toNat - 48)) 0

/-- The separator class of the bizinfo date regex. -/
def isDateSep (c : Char) : Bool := c = '-' || c = '.' || c = '/'

/-- Attempts the bizinfo date pattern (4 digits, separator, 2 digits,
separator, 2 digits) at the head of the input.  Returns the matched
characters and the rest. -/
def matchYmdChars (cs : List Char) : Option (List Char × List Char) :=
  match takeExactDigits 4 cs with
  | none => none
  | some (yds, r1) =>
    match r1 with
    | s1 :: r2 =>
      if isDateSep s1 then
        match takeExactDigits 2 r2 with
        | none => none
        | some (mds, r3) =>
          match r3 with
          | s2 :: r4 =>
            if isDateSep s2 then
              match takeExactDigits 2 r4 with
              | none => none
              | some (dds, r5) =>
                  some (yds ++ [s1] ++ mds ++ [s2] ++ dds, r5)
            else none
          | [] => none
      else none
    | [] => none

/-- Reads (year, month, day) off a full match of the date pattern. -/
def ymdOfChars (cs : List Char) : Nat × Nat × Nat :=
  match matchYmdChars cs with
  | some (m, _) => (digitsToNat (m.take 4), digitsToNat ((m.drop 5).take 2),
                    digitsToNat ((m.drop 8).take 2))
  | none => (0, 0, 0)

/-- Regex scan: first position whose tail matches the date pattern. -/
def findYmd : List Char → Option (List Char)
  | [] => none
  | c :: cs =>
      match matchYmdChars (c :: cs) with
      | some (m, _) => some m
      | none => findYmd cs

/-- parseDate from bizinfo.ts: matches YYYY-MM-DD (also . or / separators)
anywhere in the string; isEnd = true sets 23:59:59, false sets 00:00:00. -/
def parseDate (dateStr : String) (isEnd : Bool) : Option JsDate :=
  if dateStr = "" then none
  else
    match findYmd dateStr.toList with
    | some m =>
        let (y, mo, d) := ymdOfChars m
        if isEnd then some ⟨y, mo - 1, d, 23, 59, 59⟩
        else some ⟨y, mo - 1, d, 0, 0, 0⟩
    | none => none

/-- JS-regex \s characters (the subset arising in the crawled text). -/
def isJsSpace (c : Char) : Bool :=
  c = ' ' || c = '\t' || c = '\n' || c = '\r'

def skipJsSpaces : List Char → List Char
  | [] => []
  | c :: cs => if isJsSpace c then skipJsSpaces cs else c :: cs

/-- The bizinfo application-period pattern
date \s* [~-] \s* date, attempted at the head of the input; returns the two
captured date substrings. -/
def matchPeriodAt (cs : List Char) : Option (List Char × List Char) :=
  match matchYmdChars cs with
  | none => none
  | some (c1, r1) =>
    match skipJsSpaces r1 with
    | t :: r3 =>
      if t = '~' || t = '-' then
        match matchYmdChars (skipJsSpaces r3) with
        | some (c2, _) => some (c1, c2)
        | none => none
      else none
    | [] => none

def findPeriod : List Char → Option (List Char × List Char)
  | [] => none
  | c :: cs =>
      match matchPeriodAt (c :: cs) with
      | some r => some r
      | none => findPeriod cs

/-- The period extraction shared by bizinfo parseListPage and parseDetailPage:
on a match, start = parseDate(group1, false) and end = parseDate(group2, true). -/
def bizinfoParsePeriod (value : String) : Option (Option JsDate × Option JsDate) :=
  match findPeriod value.toList with
  | some (c1, c2) => some (parseDate (String.mk c1) false, parseDate (String.mk c2) true)
  | none => none

/-- The ISO variant of the date pattern (dash separators only), used by the
kstartup regexes. -/
def matchIsoYmdChars (cs : List Char) : Option (List Char × List Char) :=
  match takeExactDigits 4 cs with
  | none => none
  | some (yds, r1) =>
    match r1 with
    | '-' :: r2 =>
      match takeExactDigits 2 r2 with
      | none => none
      | some (mds, r3) =>
        match r3 with
        | '-' :: r4 =>
          match takeExactDigits 2 r4 with
          | none => none
          | some (dds, r5) => some (yds ++ ['-'] ++ mds ++ ['-'] ++ dds, r5)
        | _ => none
    | _ => none

/-- Lazy-dot scan of `.*?(\d{4}-\d{2}-\d{2})`: the first ISO date reachable
without the dot crossing a newline. -/
def findIsoDateNoNl : List Char → Option (List Char)
  | [] => none
  | c :: cs =>
      match matchIsoYmdChars (c :: cs) with
      | some (d, _) => some d
      | none => if c = '\n' then none else findIsoDateNoNl cs

/-- Lazy-dot scan of `.*?[~\-].*?(\d{4}-\d{2}-\d{2})`: tries each [~-]
occurrence in order (backtracking), each followed by the first reachable ISO
date; newlines stop the dot. -/
def findSepThenDate : List Char → Option (List Char)
  | [] => none
  | c :: cs =>
      if c = '~' || c = '-' then
        match findIsoDateNoNl cs with
        | some d => some d
        | none => findSepThenDate cs
      else if c = '\n' then none
      else findSepThenDate cs

/-- The kstartup application-period regex
(\d{4}-\d{2}-\d{2}).*?[~\-].*?(\d{4}-\d{2}-\d{2}) with leftmost-match
semantics: the start position shifts until the whole pattern matches. -/
def kstartupMatchPeriod : List Char → Option (List Char × List Char)
  | [] => none
  | c :: cs =>
      match matchIsoYmdChars (c :: cs) with
      | some (d1, r1) =>
          (match findSepThenDate r1 with
           | some d2 => some (d1, d2)
           | none => kstartupMatchPeriod cs)
      | none => kstartupMatchPeriod cs

/-- new Date("YYYY-MM-DD") on a string that is exactly an ISO calendar date:
the stored components are that date at 00:00:00 (date-only ISO strings are
read as UTC midnight). -/
def jsDateOfIsoDateOnly (s : String) : Option JsDate :=
  match matchIsoYmdChars s.toList with
  | some (m, []) =>
      let (y, mo, d) := ymdOfChars m
      some ⟨y, mo - 1, d, 0, 0, 0⟩
  | _ => none

/-- The kstartup detail-page period extraction (the 접수기간 branch):
applicationStart = new Date(group1), applicationEnd = new Date(group2) —
no end-of-day normalisation. -/
def kstartupParsePeriod (periodStr : String) : Option (JsDate × JsDate) :=
  match kstartupMatchPeriod periodStr.toList with
  | some (c1, c2) =>
      match jsDateOfIsoDateOnly (String.mk c1), jsDateOfIsoDateOnly (String.mk c2) with
      | some d1, some d2 => some (d1, d2)
      | _, _ => none
  | none => none

/-- Attempts 마감일자 \s* date at the head of the input (the kstartup
list-page deadline pattern 마감일자\s*(\d{4}-\d{2}-\d{2})). -/
def matchDeadlineAt (cs : List Char) : Option (List Char) :=
  match cs with
  | '마' :: '감' :: '일' :: '자' :: r =>
      match matchIsoYmdChars (skipJsSpaces r) with
      | some (d, _) => some d
      | none => none
  | _ => none

def findDeadline : List Char → Option (List Char)
  | [] => none
  | c :: cs =>
      match matchDeadlineAt (c :: cs) with
      | some d => some d
      | none => findDeadline cs

/-- The kstartup list-page deadline extraction:
text.match(마감일자\s*(\d{4}-\d{2}-\d{2})) followed by new Date(group1). -/
def kstartupParseListDeadline (text : String) : Option JsDate :=
  match findDeadline text.toList with
  | some d => jsDateOfIsoDateOnly (String.mk d)
  | none => none

/-! ## Substring search (JS String.prototype.includes) -/

def listStartsWith : List Char → List Char → Bool
  | [], _ => true
  | _ :: _, [] => false
  | a :: as, b :: bs => a = b && listStartsWith as bs

def listHasSub (needle : List Char) : List Char → Bool
  | [] => needle.isEmpty
  | c :: cs => listStartsWith needle (c :: cs) || listHasSub needle cs

/-- hay.includes(needle) of JavaScript. -/
def strIncludes (hay needle : String) : Bool :=
  listHasSub needle.toList hay.toList

/-! ## Keyword support-field inference

inferSupportField is imported by bizinfo.ts from src/lib/llm/extract-target.ts
but its definition is not among the provided sources (only its callers are).
-/

/-- The fixed keyword/term table of the support-field inference. -/
def supportFieldTerms : List (String × String) :=
  [("창업", "창업"), ("기술개발", "기술개발"), ("연구개발", "기술개발"),
   ("자금", "자금"), ("융자", "자금"), ("판로", "판로"), ("수출", "수출"),
   ("인력", "인력"), ("채용", "인력")]

/-- Modelled from the spec: inferSupportField — spec 4.5 step 2 describes a
fast non-LLM keyword inference for the support-field dimension, a
deterministic substring match of a fixed term list against the concatenated
description+eligibility text; it yields a value when a term fires and
nothing otherwise. -/
def inferSupportField (text : String) : Option String :=
  match supportFieldTerms.find? (fun p => strIncludes text p.1) with
  | some p => some p.2
  | none => none

/-! ## The bizinfo per-item enrichment pipeline (bizinfo.ts, crawlBizinfo)

The loosely-typed detailData bag accumulated across extraction tiers.  A
field is none when never assigned (absent from the JS object); the four
matching fields hold raw JSON values because the text-LLM merge writes the
ApplicationTarget fields into them untyped.
-/

structure DetailData where
  title : Option String := none
  description : Option String := none
  eligibility : Option String := none
  organization : Option String := none
  applicationStart : Option JsDate := none
  applicationEnd : Option JsDate := none
  targetRegion : Option Json := none
  supportField : Option Json := none
  fundingAmount : Option String := none
  companyAge : Option Json := none
  targetAge : Option Json := none
  targetIndustry : Option Json := none
  llmProcessed : Bool := false

/-- JS truthiness of a possibly-absent string field. -/
def jsTruthyOptStr : Option String → Bool
  | none => false
  | some s => s ≠ ""

/-- JS truthiness of a possibly-absent JSON-valued field. -/
def jsTruthyOptJson : Option Json → Bool
  | none => false
  | some v => jsTruthy v

/-- The JS `x || ''` read of a possibly-absent string field. -/
def jsStrOrEmpty : Option String → String
  | none => ""
  | some s => s

/-- The pipeline reads textTarget.supportField, but the ApplicationTarget
interface returned by parseLlmResponse has no supportField member, so the
access yields undefined (modelled as null). -/
def llmSupportField (_ : ApplicationTarget) : Json := Json.null

/-- The critical-fields-missing predicate of crawlBizinfo (lines 500-504):
true when any of companyAge, targetRegion, applicationStart, applicationEnd
is falsy on the detailData bag (a Date object is always truthy). -/
def missingCritical (d : DetailData) : Bool :=
  !jsTruthyOptJson d.companyAge || !jsTruthyOptJson d.targetRegion ||
  !d.applicationStart.isSome || !d.applicationEnd.isSome

/-- Step 0 of the bizinfo per-item pipeline (lines 467-474): the keyword
support-field inference over description + eligibility; a firing keyword
overwrites the structural supportField. -/
def bizinfoKeywordStep (parsed : DetailData) : DetailData :=
  match inferSupportField
      (jsStrOrEmpty parsed.description ++ " " ++ jsStrOrEmpty parsed.eligibility) with
  | some kw => { parsed with supportField := some (Json.str kw) }
  | none => parsed

/-- Step 1 (lines 476-496): the text-LLM merge.  When the call produced a
record, its four matching fields are assigned into the bag unconditionally;
supportField would be taken from the record only behind the
keyword-inference-failed guard, but the record carries no supportField
member, so the guard never fires; llmProcessed is set.  A null result or a
caught llmError leaves the bag untouched. -/
def bizinfoTextMerge (d0 : DetailData) (textTarget : Option ApplicationTarget) :
    DetailData :=
  match textTarget with
  | some t =>
      let base := { d0 with
        companyAge := some t.companyAge,
        targetRegion := some t.targetRegion,
        targetAge := some t.targetAge,
        targetIndustry := some t.targetIndustry }
      let withSf :=
        if !jsTruthyOptJson base.supportField && jsTruthy (llmSupportField t) then
          { base with supportField := some (llmSupportField t) }
        else base
      { withSf with llmProcessed := true }
  | none => d0

/-- Step 2 body (lines 509-517): the vision-LLM merge; non-empty fields of
the vision record overwrite the bag, and llmProcessed is set whenever a
record came back. -/
def bizinfoVisionMerge (d1 : DetailData) (visionTarget : Option ApplicationTarget) :
    DetailData :=
  match visionTarget with
  | some v =>
      let a := if jsTruthy v.companyAge then { d1 with companyAge := some v.companyAge } else d1
      let b := if jsTruthy v.targetRegion then { a with targetRegion := some v.targetRegion } else a
      let c := if jsTruthy v.targetAge then { b with targetAge := some v.targetAge } else b
      let e := if jsTruthy v.targetIndustry then
                 { c with targetIndustry := some v.targetIndustry } else c
      { e with llmProcessed := true }
  | none => d1

/-- Steps 0-2 of the bizinfo per-item pipeline (crawlBizinfo lines 467-521):
keyword support-field inference, the text-LLM merge, and the conditional
Puppeteer + vision fallback.  textTarget is the extractApplicationTarget
result (none covers both a null return and the caught llmError);
visionTarget is the processBizinfoPage result (none covers both a null
return and the caught pupError).  Returns the final bag and whether the
vision tier was invoked. -/
def bizinfoEnrich (parsed : DetailData) (textTarget : Option ApplicationTarget)
    (usePuppeteer browserAvailable : Bool) (visionTarget : Option ApplicationTarget) :
    DetailData × Bool :=
  let d1 := bizinfoTextMerge (bizinfoKeywordStep parsed) textTarget
  let invokeVision := usePuppeteer && browserAvailable && missingCritical d1
  (if invokeVision then bizinfoVisionMerge d1 visionTarget else d1, invokeVision)

/-! ## JSON.stringify (for the stored applicationTarget payload) -/

def escapeJsonChar (c : Char) : String :=
  if c = '"' then "\\\""
  else if c = '\\' then "\\\\"
  else if c = '\n' then "\\n"
  else if c = '\t' then "\\t"
  else if c.toNat = 13 then "\\r"
  else if c.toNat < 32 then "\\u0000"
  else String.mk [c]

def escapeJsonStr (s : String) : String :=
  s.toList.foldl (fun acc c => acc ++ escapeJsonChar c) ""

mutual

def jsonStringify : Json → String
  | Json.null => "null"
  | Json.bool true => "true"
  | Json.bool false => "false"
  | Json.num lit => lit
  | Json.str s => "\"" ++ escapeJsonStr s ++ "\""
  | Json.arr xs => "[" ++ jsonStringifyList xs ++ "]"
  | Json.obj fs => "\x7b" ++ jsonStringifyFields fs ++ "\x7d"

def jsonStringifyList : List Json → String
  | [] => ""
  | [x] => jsonStringify x
  | x :: y :: xs => jsonStringify x ++ "," ++ jsonStringifyList (y :: xs)

def jsonStringifyFields : List (String × Json) → String
  | [] => ""
  | [p] => "\"" ++ escapeJsonStr p.1 ++ "\":" ++ jsonStringify p.2
  | p :: q :: ps =>
      "\"" ++ escapeJsonStr p.1 ++ "\":" ++ jsonStringify p.2 ++ "," ++
      jsonStringifyFields (q :: ps)

end

/-- JSON.stringify of the ApplicationTarget record, in declaration order. -/
def stringifyApplicationTarget (t : ApplicationTarget) : String :=
  jsonStringify (Json.obj
    [("aiSummary", t.aiSummary), ("companyAge", t.companyAge),
     ("targetRegion", t.targetRegion), ("targetAge", t.targetAge),
     ("targetIndustry", t.targetIndustry), ("exclusionDetail", t.exclusionDetail)])

/-! ## Persistence writes touching the enrichment fields

Only the two enrichment columns the claims are about are modelled of the
stored record; every other column of the upsert payloads is independent of
them.
-/

structure StoredProgram where
  applicationTarget : Option String
  llmProcessed : Bool
deriving Repr, DecidableEq

/-- The enrichment fields written by the bizinfo upsert — identical in the
update and the create branch (lines 568-569 and 590-591):
llmProcessed = detailData?.llmProcessed || false, applicationTarget = null
(the comment in the source reads: Clear old field). -/
def bizinfoUpsertEnrichment (d : DetailData) : StoredProgram :=
  { applicationTarget := none, llmProcessed := d.llmProcessed }

/-- Applying the bizinfo upsert update branch to an existing row: both
modelled columns are listed in the update payload, so both are overwritten
regardless of the previous values. -/
def applyBizinfoUpdate (_old : StoredProgram) (d : DetailData) : StoredProgram :=
  bizinfoUpsertEnrichment d

/-- The POST /api/process-llm per-record update (part_000 lines 56-62):
applicationTarget = JSON.stringify(target) when the LLM returned a record,
null otherwise; llmProcessed = true unconditionally. -/
def processLlmWrite (target : Option ApplicationTarget) : StoredProgram :=
  { applicationTarget := target.map stringifyApplicationTarget,
    llmProcessed := true }

def applyProcessLlmWrite (_old : StoredProgram) (target : Option ApplicationTarget) :
    StoredProgram :=
  processLlmWrite target

/-! ## Page fetching (bizinfo.ts fetchListPage/fetchDetailPage,
kstartup.ts fetchListPage/fetchDetailPage)

The network is an oracle from attempt number to outcome.  A non-2xx response
throws (HTTP status error) inside the try, a rejected fetch throws too; both
land in the catch.
-/

inductive FetchOutcome where
  | ok (html : String)
  | httpErr (status : Nat)
  | netErr
deriving Repr, DecidableEq

def FetchOutcome.isOk : FetchOutcome → Bool
  | FetchOutcome.ok _ => true
  | _ => false

structure FetchTrace where
  result : Option String
  attempts : Nat
  delays : List Nat
deriving Repr, DecidableEq

/-- The bizinfo retry loop: for attempt = 0..2, try the fetch; on success
return the body; on any failure remember the error and sleep
2000 * (attempt + 1) ms; after the loop throw the last error. -/
def bizinfoFetchGo (o : Nat → FetchOutcome) : Nat → Nat → List Nat → FetchTrace
  | 0, att, ds => ⟨none, att, ds⟩
  | Nat.succ rem, att, ds =>
      match o att with
      | FetchOutcome.ok html => ⟨some html, att + 1, ds⟩
      | _ => bizinfoFetchGo o rem (att + 1) (ds ++ [2000 * (att + 1)])

/-- fetchListPage / fetchDetailPage of bizinfo.ts. -/
def bizinfoFetchPage (o : Nat → FetchOutcome) : FetchTrace :=
  bizinfoFetchGo o 3 0 []

/-- fetchListPage / fetchDetailPage of kstartup.ts: a single fetch, throwing
immediately on a non-ok response — no retry loop and no backoff. -/
def kstartupFetchPage (o : Nat → FetchOutcome) : FetchTrace :=
  match o 0 with
  | FetchOutcome.ok html => ⟨some html, 1, []⟩
  | _ => ⟨none, 1, []⟩

/-! ## Chunked screenshot capture (processBizinfoPage, chunk loop) -/

def CHUNK_HEIGHT : Nat := 3000
def MAX_CHUNKS : Nat := 6

/-- The capture loop: while capturedHeight < finalHeight, break once
screenshots.length reaches MAX_CHUNKS, else capture a chunk of
min(CHUNK_HEIGHT, finalHeight - capturedHeight) pixels and advance.  The
remaining-chunk budget MAX_CHUNKS - screenshots.length drives the recursion;
budget zero is exactly the break. -/
def chunkGo : Nat → Nat → Nat → List Nat → List Nat
  | 0, _, _, acc => acc
  | Nat.succ rem, captured, finalHeight, acc =>
      if captured < finalHeight then
        chunkGo rem (captured + min CHUNK_HEIGHT (finalHeight - captured)) finalHeight
          (acc ++ [min CHUNK_HEIGHT (finalHeight - captured)])
      else acc

/-- The chunk heights captured for a given measured content height. -/
def captureChunks (finalHeight : Nat) : List Nat :=
  chunkGo MAX_CHUNKS 0 finalHeight []

/-- The height clamp applied before the capture loop:
finalHeight = min(max(finalHeight, 2000), 20000). -/
def clampHeight (h : Nat) : Nat := min (max h 2000) 20000

/-! ## The crawl run loops (crawlBizinfo / crawlKStartup page and item loops)

Pages and items are abstracted to their outcomes: a page either fails as a
whole (fetch/parse threw) or yields a list of items, each of which either
processes successfully or throws with a message.  The JS limit check
`if (limit && totalProcessed >= limit) break` is modelled including the
falsiness of limit = 0.
-/

structure CrawlResultM where
  success : Bool
  count : Nat
  errors : List String
deriving Repr, DecidableEq

def limitReached : Option Nat → Nat → Bool
  | none, _ => false
  | some l, t => decide (l ≠ 0) && decide (t ≥ l)

/-- The inner item loop: successCount, totalProcessed and the error list are
threaded through; an item failure appends 공고 (id) 처리 실패: (error) and the
loop continues with the next item. -/
def processPageItems (limit : Option Nat) :
    List (String × Except String Unit) → Nat → Nat → List String →
    Nat × Nat × List String
  | [], successCount, totalProcessed, errs => (successCount, totalProcessed, errs)
  | (sid, r) :: rest, successCount, totalProcessed, errs =>
      if limitReached limit totalProcessed then (successCount, totalProcessed, errs)
      else
        match r with
        | Except.ok _ =>
            processPageItems limit rest (successCount + 1) (totalProcessed + 1) errs
        | Except.error e =>
            processPageItems limit rest successCount totalProcessed
              (errs ++ ["공고 " ++ sid ++ " 처리 실패: " ++ e])

/-- The outer page loop: a failed page appends 페이지 (n) 크롤링 실패: (error)
and the loop continues with the next page. -/
def crawlPagesGo (limit : Option Nat) :
    List (Except String (List (String × Except String Unit))) → Nat → Nat → Nat →
    List String → Nat × List String
  | [], successCount, _, _, errs => (successCount, errs)
  | pageRes :: rest, successCount, totalProcessed, pageNum, errs =>
      match pageRes with
      | Except.error e =>
          crawlPagesGo limit rest successCount totalProcessed (pageNum + 1)
            (errs ++ ["페이지 " ++ toString pageNum ++ " 크롤링 실패: " ++ e])
      | Except.ok items =>
          match processPageItems limit items successCount totalProcessed errs with
          | (s, t, es) => crawlPagesGo limit rest s t (pageNum + 1) es

/-- A whole crawl run over its page outcomes: success iff the error list
stayed empty, count = number of successfully upserted items. -/
def crawlRun (limit : Option Nat)
    (pages : List (Except String (List (String × Except String Unit)))) : CrawlResultM :=
  match crawlPagesGo limit pages 0 0 1 [] with
  | (cnt, errs) => ⟨errs.isEmpty, cnt, errs⟩

/-! ## DOM model

cheerio.load parses any string into a node tree without throwing (the input
HTML string is abstracted to its parsed tree; a document is its list of
top-level nodes).  The selector operations the extractors use are modelled
below; malformed input corresponds to trees of bare text nodes.
-/

inductive Dom where
  | elem (tag : String) (attrs : List (String × String)) (children : List Dom)
  | text (s : String)

def tagOf : Dom → Option String
  | Dom.elem t _ _ => some t
  | Dom.text _ => none

def getAttr (d : Dom) (name : String) : Option String :=
  match d with
  | Dom.elem _ attrs _ => (attrs.find? (fun p => p.1 = name)).map (fun p => p.2)
  | Dom.text _ => none

def classList (d : Dom) : List String :=
  match getAttr d "class" with
  | some s => (s.splitOn " ").filter (fun x => x ≠ "")
  | none => []

def domHasClass (d : Dom) (c : String) : Bool := (classList d).contains c

/-- An element with its traversal context: ancestors (nearest first) and the
following siblings, enough for .closest and .next. -/
structure ElemCtx where
  node : Dom
  ancestors : List Dom
  after : List Dom

mutual

/-- All element nodes of a node list in document order, with contexts. -/
def ctxOfChildren (ancestors : List Dom) : List Dom → List ElemCtx
  | [] => []
  | d :: rest => ctxOfOne ancestors d rest ++ ctxOfChildren ancestors rest

/-- One node (with its following siblings) and its element descendants. -/
def ctxOfOne (ancestors : List Dom) : Dom → List Dom → List ElemCtx
  | Dom.text _, _ => []
  | Dom.elem t a ch, after =>
      ⟨Dom.elem t a ch, ancestors, after⟩ ::
        ctxOfChildren (Dom.elem t a ch :: ancestors) ch

end

/-- The elements of a whole document. -/
def docCtx (doc : List Dom) : List ElemCtx := ctxOfChildren [] doc

/-- One CSS simple selector: optional tag, class, id, and [attr*=sub] parts. -/
structure SimpleSel where
  tag : Option String := none
  cls : Option String := none
  idAttr : Option String := none
  attrHasSub : Option (String × String) := none

def selMatches (s : SimpleSel) (d : Dom) : Bool :=
  match tagOf d with
  | none => false
  | some t =>
    (match s.tag with | none => true | some tg => t = tg) &&
    (match s.cls with | none => true | some c => domHasClass d c) &&
    (match s.idAttr with | none => true | some i => getAttr d "id" = some i) &&
    (match s.attrHasSub with
     | none => true
     | some p => match getAttr d p.1 with
                 | some v => strIncludes v p.2
                 | none => false)

/-- A comma-separated selector group. -/
def selAnyMatches (ss : List SimpleSel) (d : Dom) : Bool :=
  ss.any (fun s => selMatches s d)

def queryAll (doc : List Dom) (ss : List SimpleSel) : List ElemCtx :=
  (docCtx doc).filter (fun c => selAnyMatches ss c.node)

/-- A descendant selector group: each pair is (ancestor part, element part). -/
def queryDescAll (doc : List Dom) (ps : List (SimpleSel × SimpleSel)) : List ElemCtx :=
  (docCtx doc).filter
    (fun c => ps.any (fun p => selMatches p.2 c.node && c.ancestors.any (selMatches p.1)))

/-- .next(): the immediately following sibling element. -/
def nextElem (c : ElemCtx) : Option Dom :=
  c.after.find? (fun d => (tagOf d).isSome)

/-- .next(selector): the next sibling element if it matches, else empty. -/
def nextElemSel (c : ElemCtx) (ss : List SimpleSel) : Option Dom :=
  match nextElem c with
  | some d => if selAnyMatches ss d then some d else none
  | none => none

/-- .closest(selector): the element itself or its nearest matching ancestor. -/
def closestSel (c : ElemCtx) (ss : List SimpleSel) : Option Dom :=
  (c.node :: c.ancestors).find? (selAnyMatches ss)

/-- .find(selector): matching descendants in document order. -/
def findIn (d : Dom) (ss : List SimpleSel) : List Dom :=
  match d with
  | Dom.elem _ _ ch => ((ctxOfChildren [d] ch).filter (fun c => selAnyMatches ss c.node)).map ElemCtx.node
  | Dom.text _ => []

mutual

/-- .text() of a node: all descendant text concatenated. -/
def domText : Dom → String
  | Dom.text s => s
  | Dom.elem _ _ ch => domTextList ch

def domTextList : List Dom → String
  | [] => ""
  | d :: rest => domText d ++ domTextList rest

end

def scrubbedTags : List String := ["script", "style", "noscript", "iframe", "link", "meta"]

mutual

/-- .text() after .find('script, style, noscript, iframe, link, meta').remove():
descendants with those tags contribute nothing (the call target itself is kept
since .find only selects descendants). -/
def domTextScrubbed : Dom → String
  | Dom.text s => s
  | Dom.elem _ _ ch => domTextScrubbedList ch

def domTextScrubbedList : List Dom → String
  | [] => ""
  | Dom.text s :: rest => s ++ domTextScrubbedList rest
  | Dom.elem t a ch :: rest =>
      (if scrubbedTags.contains t then "" else domTextScrubbed (Dom.elem t a ch)) ++
        domTextScrubbedList rest

end

/-! ## Text cleaning (src/lib/crawlers/utils.ts) -/

def listTrim (cs : List Char) : List Char :=
  ((cs.dropWhile isJsSpace).reverse.dropWhile isJsSpace).reverse

/-- JS String.prototype.trim. -/
def strTrim (s : String) : String := String.mk (listTrim s.toList)

/-- replace(/\s+/g, ' '). -/
def collapseWsGo : List Char → Bool → List Char
  | [], _ => []
  | c :: cs, pend =>
      if isJsSpace c then collapseWsGo cs true
      else (if pend then [' ', c] else [c]) ++ collapseWsGo cs false

def collapseWs (cs : List Char) : List Char := collapseWsGo cs false

/-- cleanTitle from utils.ts: delete every 새로운게시글, collapse whitespace,
trim. -/
def dropNoticeMarker : List Char → List Char
  | [] => []
  | '새' :: '로' :: '운' :: '게' :: '시' :: '글' :: cs => dropNoticeMarker cs
  | c :: cs => c :: dropNoticeMarker cs

def cleanTitle (title : String) : String :=
  if title = "" then ""
  else String.mk (listTrim (collapseWs (dropNoticeMarker title.toList)))

/-! Regex scrubbing combinators for removeJsPatterns.  A matcher consumes a
match at the head of the input and returns the rest; every pattern below has
a nonempty mandatory part, so matches always consume input. -/

abbrev Matcher := List Char → Option (List Char)

def mLit (s : String) : Matcher := fun cs =>
  if listStartsWith s.toList cs then some (cs.drop s.toList.length) else none

def mAny (p : Char → Bool) : Matcher := fun cs => some (cs.dropWhile p)

def mPlus (p : Char → Bool) : Matcher := fun cs =>
  match cs with
  | c :: r => if p c then some (r.dropWhile p) else none
  | [] => none

def mSeq (a b : Matcher) : Matcher := fun cs => (a cs).bind b

def mAlt (a b : Matcher) : Matcher := fun cs =>
  match a cs with
  | some r => some r
  | none => b cs

def mOpt (a : Matcher) : Matcher := fun cs =>
  match a cs with
  | some r => some r
  | none => some cs

def mCat : List Matcher → Matcher
  | [] => fun cs => some cs
  | m :: ms => mSeq m (mCat ms)

/-- Exactly one given character. -/
def mChr (ch : Char) : Matcher := fun cs =>
  match cs with
  | c :: r => if c = ch then some r else none
  | [] => none

/-- Lazy [\s\S]*? up to and including a stop character whose continuation
matches; backtracks over later stop occurrences. -/
def mLazyThroughGo (stop : Char) (cont : Matcher) : List Char → Option (List Char)
  | [] => none
  | c :: cs =>
      if c = stop then
        match cont cs with
        | some r => some r
        | none => mLazyThroughGo stop cont cs
      else mLazyThroughGo stop cont cs

/-- Lazy [\s\S]*? up to and including the first occurrence of a literal. -/
def mLazyLitGo (stop : List Char) : List Char → Option (List Char)
  | [] => none
  | c :: cs =>
      if listStartsWith stop (c :: cs) then some ((c :: cs).drop stop.length)
      else mLazyLitGo stop cs

def isWordChar (c : Char) : Bool := c.isAlphanum || c = '_'

def atWordBoundary : Option Char → Bool
  | none => true
  | some c => !isWordChar c

def lbrace : Char := Char.ofNat 123
def rbrace : Char := Char.ofNat 125

/-- Left-to-right global removal of every match, tracking the previous
original character for word boundaries; fuel is the input length (every
match consumes at least one character). -/
def runRemoveGo (matchAt : Option Char → Matcher) :
    Nat → Option Char → List Char → List Char
  | 0, _, cs => cs
  | Nat.succ fuel, prev, cs =>
      match cs with
      | [] => []
      | c :: rest =>
          match matchAt prev cs with
          | some r =>
              runRemoveGo matchAt fuel ((cs.take (cs.length - r.length)).getLast?) r
          | none => c :: runRemoveGo matchAt fuel (some c) rest

def runRemove (matchAt : Option Char → Matcher) (cs : List Char) : List Char :=
  runRemoveGo matchAt cs.length none cs

/-! The individual patterns of removeJsPatterns, in source order. -/

/-- \b(var|let|const)\s+\w+\s*=\s*[^;]+;? -/
def varDeclAt (prev : Option Char) : Matcher := fun cs =>
  if atWordBoundary prev then
    mCat [mAlt (mLit "var") (mAlt (mLit "let") (mLit "const")),
          mPlus isJsSpace, mPlus isWordChar, mAny isJsSpace, mLit "=",
          mAny isJsSpace, mPlus (fun c => c ≠ ';'), mOpt (mLit ";")] cs
  else none

/-- function\s*\w*\s*\([^)]*\)\s*(lbrace)[^(rbrace)]*(rbrace) -/
def fnDeclM : Matcher :=
  mCat [mLit "function", mAny isJsSpace, mAny isWordChar, mAny isJsSpace,
        mLit "(", mAny (fun c => c ≠ ')'), mLit ")", mAny isJsSpace,
        mChr lbrace, mAny (fun c => c ≠ rbrace), mChr rbrace]

/-- \$\([^)]*\)\s*\.\s*\w+\s*\([^)]*\)\s*;? -/
def dollarCallM : Matcher :=
  mCat [mLit "$(", mAny (fun c => c ≠ ')'), mLit ")", mAny isJsSpace,
        mLit ".", mAny isJsSpace, mPlus isWordChar, mAny isJsSpace,
        mLit "(", mAny (fun c => c ≠ ')'), mLit ")", mAny isJsSpace,
        mOpt (mLit ";")]

/-- jQuery\([^)]*\)\s*\.\s*\w+\s*\([^)]*\)\s*;? -/
def jqueryCallM : Matcher :=
  mCat [mLit "jQuery(", mAny (fun c => c ≠ ')'), mLit ")", mAny isJsSpace,
        mLit ".", mAny isJsSpace, mPlus isWordChar, mAny isJsSpace,
        mLit "(", mAny (fun c => c ≠ ')'), mLit ")", mAny isJsSpace,
        mOpt (mLit ";")]

/-- jQuery\(function\s*\([^)]*\)\s*(lbrace)[\s\S]*?(rbrace)\s*\)\s*;? -/
def jqueryFnM : Matcher :=
  mCat [mLit "jQuery(function", mAny isJsSpace, mLit "(",
        mAny (fun c => c ≠ ')'), mLit ")", mAny isJsSpace,
        mChr lbrace,
        fun cs => mLazyThroughGo rbrace
          (mCat [mAny isJsSpace, mLit ")", mAny isJsSpace, mOpt (mLit ";")]) cs]

/-- \bwindow\.open\([^)]*\)\s*;?  (and the console.log / document.write
analogues via the name argument) -/
def namedCallAt (name : String) (prev : Option Char) : Matcher := fun cs =>
  if atWordBoundary prev then
    mCat [mLit name, mLit "(", mAny (fun c => c ≠ ')'), mLit ")",
          mAny isJsSpace, mOpt (mLit ";")] cs
  else none

/-- \bchangeUrl\s*=\s*[^;]+;? -/
def changeUrlAt (prev : Option Char) : Matcher := fun cs =>
  if atWordBoundary prev then
    mCat [mLit "changeUrl", mAny isJsSpace, mLit "=", mAny isJsSpace,
          mPlus (fun c => c ≠ ';'), mOpt (mLit ";")] cs
  else none

/-- the two comment patterns -/
def lineCommentM : Matcher := mCat [mLit "//", mAny (fun c => c ≠ '\n')]

def blockCommentM : Matcher := mSeq (mLit "/*") (fun cs => mLazyLitGo "*/".toList cs)

def listEndsWith (suf : List Char) (cs : List Char) : Bool :=
  listStartsWith suf.reverse cs.reverse

/-- \w+Js\.\w+\([^)]*\): the word run must end in Js right before the dot. -/
def jsObjCallM : Matcher := fun cs =>
  let w := cs.takeWhile isWordChar
  if w.length ≥ 3 && listEndsWith "Js".toList w then
    mCat [mLit ".", mPlus isWordChar, mLit "(", mAny (fun c => c ≠ ')'), mLit ")"]
      (cs.drop w.length)
  else none

/-- \(\s*\) -/
def emptyParensM : Matcher := mCat [mLit "(", mAny isJsSpace, mLit ")"]

/-- [(lbrace)(rbrace);] replaced by a space -/
def braceSemiToSpace (cs : List Char) : List Char :=
  cs.map (fun c => if c = lbrace || c = rbrace || c = ';' then ' ' else c)

/-- &amp replaced by & -/
def ampFix : List Char → List Char
  | [] => []
  | '&' :: 'a' :: 'm' :: 'p' :: cs => '&' :: ampFix cs
  | c :: cs => c :: ampFix cs

def noBoundary (m : Matcher) : Option Char → Matcher := fun _ => m

/-- removeJsPatterns from utils.ts: the chain of global regex removals, then
brace/semicolon blanking, &amp fixing, whitespace collapsing and trimming. -/
def removeJsPatterns (text : String) : String :=
  if text = "" then ""
  else
    let c1 := runRemove varDeclAt text.toList
    let c2 := runRemove (noBoundary fnDeclM) c1
    let c3 := runRemove (noBoundary dollarCallM) c2
    let c4 := runRemove (noBoundary jqueryCallM) c3
    let c5 := runRemove (noBoundary jqueryFnM) c4
    let c6 := runRemove (noBoundary (mLit "jQuery()")) c5
    let c7 := runRemove (noBoundary (mLit "$()")) c6
    let c8 := runRemove (namedCallAt "window.open") c7
    let c9 := runRemove (namedCallAt "console.log") c8
    let c10 := runRemove (namedCallAt "document.write") c9
    let c11 := runRemove changeUrlAt c10
    let c12 := runRemove (noBoundary lineCommentM) c11
    let c13 := runRemove (noBoundary blockCommentM) c12
    let c14 := runRemove (noBoundary jsObjCallM) c13
    let c15 := runRemove (noBoundary emptyParensM) c14
    String.mk (listTrim (collapseWs (ampFix (braceSemiToSpace c15))))

/-- getCleanText from utils.ts, generalised to a whole selection (clone,
scrub script-like descendants, concatenate text, collapse whitespace, trim,
strip script patterns); on the empty selection it returns the empty string. -/
def getCleanTextMany (ds : List Dom) : String :=
  removeJsPatterns
    (strTrim (String.mk (collapseWs
      (ds.foldl (fun acc d => acc ++ domTextScrubbed d) "").toList)))

def getCleanText (d : Dom) : String := getCleanTextMany [d]

/-- getCleanText of a possibly-empty single-element selection
(`if (!element) return ''`). -/
def getCleanTextOpt : Option Dom → String
  | some d => getCleanText d
  | none => ""

/-! ## Selector shorthands and small JS string helpers -/

def selTag (t : String) : SimpleSel := { tag := some t }
def selCls (c : String) : SimpleSel := { cls := some c }
def selTagCls (t c : String) : SimpleSel := { tag := some t, cls := some c }
def selId (i : String) : SimpleSel := { idAttr := some i }
def selTagAttrSub (t a sub : String) : SimpleSel :=
  { tag := some t, attrHasSub := some (a, sub) }

def isHangul (c : Char) : Bool := '가' ≤ c && c ≤ '힣'

/-- s.substring(0, n) (all text here is in the basic plane, so UTF-16 units
coincide with characters). -/
def strTake (s : String) (n : Nat) : String := String.mk (s.toList.take n)

def strStartsWith (s lit : String) : Bool := listStartsWith lit.toList s.toList

/-- s.replace(lit, ''): deletes the first occurrence. -/
def dropFirstLitGo (lit : List Char) : List Char → List Char
  | [] => []
  | c :: cs =>
      if listStartsWith lit (c :: cs) then (c :: cs).drop lit.length
      else c :: dropFirstLitGo lit cs

def replaceFirstLit (lit : String) (s : String) : String :=
  String.mk (dropFirstLitGo lit.toList s.toList)

/-- JS parseInt on a string: leading whitespace, optional sign, leading
digits; none models NaN. -/
def jsParseIntOpt (s : String) : Option Int :=
  let cs := s.toList.dropWhile isJsSpace
  let p : Int × List Char :=
    match cs with
    | '-' :: r => (-1, r)
    | '+' :: r => (1, r)
    | _ => (1, cs)
  let ds := p.2.takeWhile Char.isDigit
  if ds = [] then none else some (p.1 * (digitsToNat ds : Int))

/-- The raw .text() of a whole selection. -/
def textOfSel (doc : List Dom) (ss : List SimpleSel) : String :=
  (queryAll doc ss).foldl (fun acc c => acc ++ domText c.node) ""

def firstSome (l : List (Option α)) : Option α := l.findSome? id

/-- attr('href') || '' -/
def hrefOf (d : Dom) : String :=
  match getAttr d "href" with
  | some h => h
  | none => ""

/-! ## bizinfo parseDetailPage (bizinfo.ts lines 205-372) -/

/-- The ^지원사업\s*공고\s* strip applied to the detail title. -/
def leadBizMarkerDrop (cs : List Char) : List Char :=
  match mCat [mLit "지원사업", mAny isJsSpace, mLit "공고", mAny isJsSpace] cs with
  | some r => r
  | none => cs

/-- The QR코드기업마당\s*앱\s*다운로드 marker (QR case-insensitively). -/
def qrMarkerM : Matcher :=
  mCat [fun cs =>
          match cs with
          | a :: b :: r =>
              if (a = 'Q' || a = 'q') && (b = 'R' || b = 'r') then some r else none
          | _ => none,
        mLit "코드기업마당", mAny isJsSpace, mLit "앱", mAny isJsSpace, mLit "다운로드"]

/-- The .replace(/QR코드...다운로드.*$/i, '') strip: without the m flag the
dollar anchor only matches at the end of the string (or before one final
newline), so the pattern removes a matched marker and its tail only when no
interior newline follows; otherwise later occurrences are tried. -/
def dropQrTail : List Char → List Char
  | [] => []
  | c :: cs =>
      match qrMarkerM (c :: cs) with
      | some rest =>
          let tail := rest.dropWhile (fun x => x ≠ '\n')
          if tail = [] then []
          else if tail = ['\n'] then ['\n']
          else c :: dropQrTail cs
      | none => c :: dropQrTail cs

/-- The shared label-to-field chain of the two bizinfo detail passes. -/
def bizinfoLabelChains (d : DetailData) (headerText value : String) : DetailData :=
  if strIncludes headerText "사업개요" || strIncludes headerText "지원내용" then
    { d with description := some value }
  else if strIncludes headerText "지원대상" || strIncludes headerText "신청자격" ||
          strIncludes headerText "참여자격" then
    { d with eligibility := some value }
  else if strIncludes headerText "사업수행기관" || strIncludes headerText "수행기관" then
    { d with organization := some value }
  else if strIncludes headerText "신청기간" || strIncludes headerText "접수기간" then
    match bizinfoParsePeriod value with
    | some (st, en) =>
        let d1 := match st with
                  | some s => { d with applicationStart := some s }
                  | none => d
        (match en with
         | some e => { d1 with applicationEnd := some e }
         | none => d1)
    | none => d
  else if strIncludes headerText "지역" || headerText = "지역" then
    { d with targetRegion := some (Json.str value) }
  else if strIncludes headerText "분야" || strIncludes headerText "지원분야" then
    { d with supportField := some (Json.str value) }
  else if strIncludes headerText "지원규모" || strIncludes headerText "지원금액" ||
          strIncludes headerText "지원한도" then
    { d with fundingAmount := some value }
  else d

/-- Method 1: span.s_title followed by a sibling div.txt. -/
def bizinfoMethod1 (doc : List Dom) (d : DetailData) : DetailData :=
  (queryAll doc [selTagCls "span" "s_title"]).foldl
    (fun acc c =>
      match nextElemSel c [selTagCls "div" "txt"] with
      | none => acc
      | some nxt =>
          let headerText := strTrim (getCleanText c.node)
          let value := strTrim (getCleanText nxt)
          if headerText = "" || value = "" then acc
          else bizinfoLabelChains acc headerText value)
    d

/-- Method 2 (fallback): th/dt headers with their next td/dd. -/
def bizinfoMethod2 (doc : List Dom) (d : DetailData) : DetailData :=
  (queryAll doc [selTag "th", selTag "dt"]).foldl
    (fun acc c =>
      let headerText := getCleanText c.node
      let value := getCleanTextOpt (nextElemSel c [selTag "td", selTag "dd"])
      bizinfoLabelChains acc headerText value)
    d

def bizinfoCategoryMap : List (String × String) :=
  [("경영", "자금"), ("기술", "기술개발"), ("인력", "인력"), ("수출", "수출"),
   ("창업", "창업"), ("금융", "자금"), ("내수", "판로"), ("기타", "기타")]

def categoryMapLookup (t : String) : String :=
  match bizinfoCategoryMap.find? (fun p => p.1 = t) with
  | some p => p.2
  | none => t

/-! The funding-amount regex fallbacks, wired as capturing scanners: each
pattern yields its capture group. -/

abbrev CapM := List Char → Option (List Char × List Char)

def cLit (s : String) : CapM := fun cs =>
  if listStartsWith s.toList cs then some (s.toList, cs.drop s.toList.length) else none

/-- (?:,\d+)* after the integer digits. -/
def cCommaDigitsGo : Nat → List Char → List Char × List Char
  | 0, cs => ([], cs)
  | Nat.succ fuel, cs =>
      match cs with
      | ',' :: c :: r =>
          if c.isDigit then
            let ds := (c :: r).takeWhile Char.isDigit
            let rest := (c :: r).dropWhile Char.isDigit
            let p := cCommaDigitsGo fuel rest
            (',' :: (ds ++ p.1), p.2)
          else ([], cs)
      | _ => ([], cs)

/-- \d+(?:,\d+)* then optional \s* (when withSpace), then a unit from the
list (optional when optUnit), then 원. -/
def amountCore (units : List String) (withSpace optUnit : Bool) : CapM := fun cs =>
  match cs with
  | c :: _ =>
      if c.isDigit then
        let ds := cs.takeWhile Char.isDigit
        let r1 := cs.dropWhile Char.isDigit
        let (cgs, r2) := cCommaDigitsGo r1.length r1
        let (sp, r3) :=
          if withSpace then (r2.takeWhile isJsSpace, r2.dropWhile isJsSpace)
          else ([], r2)
        match firstSome (units.map (fun s => cLit s r3)) with
        | some (u, r4) =>
            (match r4 with
             | '원' :: r5 => some (ds ++ cgs ++ sp ++ u ++ ['원'], r5)
             | _ => none)
        | none =>
            if optUnit then
              match r3 with
              | '원' :: r5 => some (ds ++ cgs ++ sp ++ ['원'], r5)
              | _ => none
            else none
      else none
  | [] => none

/-- \d+(?:백|천)?만?원 of the 업체당/장려금 patterns. -/
def amountSmall : CapM := fun cs =>
  match cs with
  | c :: _ =>
      if c.isDigit then
        let ds := cs.takeWhile Char.isDigit
        let r1 := cs.dropWhile Char.isDigit
        let (u1, r2) :=
          match firstSome (["백", "천"].map (fun s => cLit s r1)) with
          | some p => p
          | none => ([], r1)
        let (u2, r3) :=
          match cLit "만" r2 with
          | some p => p
          | none => ([], r2)
        match r3 with
        | '원' :: r4 => some (ds ++ u1 ++ u2 ++ ['원'], r4)
        | _ => none
      else none
  | [] => none

/-- \d+ then a literal suffix (the 백만원/천만원/억원 patterns). -/
def digitsThenLit (lit : String) : CapM := fun cs =>
  match cs with
  | c :: _ =>
      if c.isDigit then
        let ds := cs.takeWhile Char.isDigit
        let r1 := cs.dropWhile Char.isDigit
        (cLit lit r1).map (fun p => (ds ++ p.1, p.2))
      else none
  | [] => none

/-- group g followed by an uncaptured continuation. -/
def cFollow (g : CapM) (post : List Char → Option (List Char)) : CapM := fun cs =>
  (g cs).bind (fun p => (post p.2).map (fun r => (p.1, r)))

/-- uncaptured lead followed by the captured group. -/
def cAfter (pre : List Char → Option (List Char)) (g : CapM) : CapM := fun cs =>
  (pre cs).bind g

def isColonOrSpace (c : Char) : Bool := c = ':' || isJsSpace c

/-- The fundingPatterns array, in source order; each entry returns the
capture that becomes fundingAmount. -/
def fundingPatterns : List CapM :=
  [cAfter (mCat [mLit "최대", mAny isJsSpace]) (amountCore ["억", "천만", "백만", "만"] true true),
   cFollow (amountCore ["억", "천만", "백만", "만"] true true)
     (mSeq (mAny isJsSpace) (mAlt (mLit "이내") (mAlt (mLit "이하") (mLit "한도")))),
   cAfter (mCat [mLit "지원금액", mAny isColonOrSpace]) (amountCore ["억", "천만", "백만", "만"] true true),
   cFollow (fun cs =>
       match cs with
       | c :: _ =>
           if c.isDigit then
             let ds := cs.takeWhile Char.isDigit
             let r1 := cs.dropWhile Char.isDigit
             let (cgs, r2) := cCommaDigitsGo r1.length r1
             (cLit "원/kg" r2).map (fun p => (ds ++ cgs ++ p.1, p.2))
           else none
       | [] => none) (fun cs => some cs),
   digitsThenLit "백만원",
   digitsThenLit "천만원",
   digitsThenLit "억원",
   cAfter (mCat [mAlt (mLit "업체당") (mAlt (mLit "개사당") (mAlt (mLit "1사당")
             (mAlt (mLit "기업당") (mLit "업체별")))), mAny isJsSpace]) amountSmall,
   cAfter (mCat [mAlt (mLit "장려금") (mAlt (mLit "보조금") (mAlt (mLit "지원금")
             (mLit "사업비"))), mAny isColonOrSpace]) amountSmall,
   amountCore ["억", "천만", "백만", "만", "천", "백"] false false]

/-- Leftmost match of a capturing pattern over a string. -/
def cFindGo (m : CapM) : List Char → Option (List Char)
  | [] => none
  | c :: cs =>
      match m (c :: cs) with
      | some p => some p.1
      | none => cFindGo m cs

def cFind (m : CapM) (s : String) : Option String :=
  (cFindGo m s.toList).map String.mk

/-- First funding pattern that fires on the description. -/
def findFundingAmount (descr : String) : Option String :=
  firstSome (fundingPatterns.map (fun m => cFind m descr))

/-- parseDetailPage of bizinfo.ts: title cleanup, label pass over
span.s_title/div.txt pairs, th-dt fallback pass, main-content description
fallback, length caps, category-tag supportField fallback, funding-amount
regex fallback, keyword supportField fallback. -/
def bizinfoParseDetailPage (doc : List Dom) : DetailData :=
  let t1 := strTrim (textOfSel doc [selCls "view_title"])
  let t2 := strTrim (textOfSel doc [selTag "h1"])
  let t3 := strTrim (textOfSel doc [selCls "title"])
  let title0 := if t1 ≠ "" then t1 else if t2 ≠ "" then t2 else t3
  let d0 : DetailData :=
    if title0 ≠ "" then
      { title := some (strTrim (String.mk (dropQrTail (leadBizMarkerDrop title0.toList)))) }
    else {}
  let d1 := bizinfoMethod1 doc d0
  let d2 :=
    if !jsTruthyOptStr d1.description && !jsTruthyOptStr d1.eligibility then
      bizinfoMethod2 doc d1
    else d1
  let d3 :=
    if !jsTruthyOptStr d2.description then
      match (queryAll doc [selTagCls "div" "view_cont", selTagCls "div" "content",
                           selTag "article"]).head? with
      | some c => { d2 with description := some (strTake (getCleanText c.node) 5000) }
      | none => d2
    else d2
  let d4 :=
    if jsTruthyOptStr d3.description then
      { d3 with description := d3.description.map (fun s => strTake s 5000) }
    else d3
  let d5 :=
    if jsTruthyOptStr d4.eligibility then
      { d4 with eligibility := d4.eligibility.map (fun s => strTake s 2000) }
    else d4
  let d6 :=
    if !jsTruthyOptJson d5.supportField then
      match (queryAll doc [selCls "tag", selCls "category", selTagCls "span" "cate",
                           selCls "view_cate"]).head? with
      | some c =>
          let tagText := strTrim (getCleanText c.node)
          if tagText ≠ "" then
            { d5 with supportField := some (Json.str (categoryMapLookup tagText)) }
          else d5
      | none => d5
    else d5
  let d7 :=
    if !jsTruthyOptStr d6.fundingAmount && jsTruthyOptStr d6.description then
      match findFundingAmount (jsStrOrEmpty d6.description) with
      | some amt => { d6 with fundingAmount := some amt }
      | none => d6
    else d6
  if !jsTruthyOptJson d7.supportField && jsTruthyOptStr d7.description then
    match inferSupportField (jsStrOrEmpty d7.description ++ " " ++
                             jsStrOrEmpty d7.eligibility) with
    | some inferred => { d7 with supportField := some (Json.str inferred) }
    | none => d7
  else d7

/-! ## bizinfo parseListPage and getTotalPages -/

structure BListItem where
  sourceId : String
  category : String
  title : String
  region : String
  applicationStart : Option JsDate := none
  applicationEnd : Option JsDate := none
  url : String
deriving Repr, DecidableEq

def bizinfoViewUrl : String :=
  "https://www.bizinfo.go.kr/web/lay1/bbs/S1T122C128/AS/74/view.do"

/-- /pblancId=(PBLN_\d+)/ over the href. -/
def pblancIdOf : List Char → Option String
  | [] => none
  | c :: cs =>
      if listStartsWith "pblancId=PBLN_".toList (c :: cs) then
        let r := (c :: cs).drop "pblancId=PBLN_".toList.length
        let ds := r.takeWhile Char.isDigit
        if ds = [] then pblancIdOf cs else some ("PBLN_" ++ String.mk ds)
      else pblancIdOf cs

/-- /\[([가-힣]+)\]/: first bracketed Hangul run. -/
def bracketRegion : List Char → Option String
  | [] => none
  | '[' :: cs =>
      let hs := cs.takeWhile isHangul
      if hs ≠ [] && (cs.drop hs.length).head? = some ']' then some (String.mk hs)
      else bracketRegion cs
  | _ :: cs => bracketRegion cs

/-- .replace(/\[[가-힣]+\]\s*/, ''): deletes the first bracketed Hangul tag
and its trailing whitespace. -/
def dropBracketTag : List Char → List Char
  | [] => []
  | '[' :: cs =>
      let hs := cs.takeWhile isHangul
      if hs ≠ [] && (cs.drop hs.length).head? = some ']' then
        (cs.drop (hs.length + 1)).dropWhile isJsSpace
      else '[' :: dropBracketTag cs
  | c :: cs => c :: dropBracketTag cs

def bizinfoCategories : List String :=
  ["금융", "기술", "인력", "수출", "내수", "창업", "경영", "기타"]

/-- First-occurrence dedup by key (filter with findIndex in the source). -/
def dedupByKey (key : α → String) (items : List α) : List α :=
  items.foldl (fun acc it => if acc.any (fun x => key x = key it) then acc else acc ++ [it]) []

/-- parseListPage of bizinfo.ts. -/
def bizinfoParseListPage (doc : List Dom) : List BListItem :=
  let items :=
    (queryAll doc [selTagAttrSub "a" "href" "pblancId=PBLN"]).foldl
      (fun acc c =>
        match pblancIdOf (hrefOf c.node).toList with
        | none => acc
        | some sourceId =>
          let title := strTrim (domText c.node)
          if title = "" || title.length < 5 then acc
          else
            let region :=
              match bracketRegion title.toList with
              | some r => r
              | none => ""
            let cleanedTitle := strTrim (String.mk (dropBracketTag title.toList))
            let url := bizinfoViewUrl ++ "?pblancId=" ++ sourceId
            match closestSel c [selTag "tr", selTag "li", selTagCls "div" "list-item"] with
            | some row =>
                let rowText := domText row
                let category :=
                  match bizinfoCategories.find? (fun cat => strIncludes rowText cat) with
                  | some cat => cat
                  | none => "기타"
                (match findPeriod rowText.toList with
                 | some (c1, c2) =>
                     acc ++ [{ sourceId, category, title := cleanedTitle, region,
                               applicationStart := parseDate (String.mk c1) false,
                               applicationEnd := parseDate (String.mk c2) true, url }]
                 | none =>
                     acc ++ [{ sourceId, category, title := cleanedTitle, region, url }])
            | none =>
                acc ++ [{ sourceId, category := "기타", title := cleanedTitle, region, url }])
      []
  dedupByKey BListItem.sourceId items

/-- /cpage=(\d+)/ over an href; later occurrences are tried when the first
cpage= is not followed by a digit. -/
def cpageOf : List Char → Option Nat
  | [] => none
  | c :: cs =>
      if listStartsWith "cpage=".toList (c :: cs) then
        let r := (c :: cs).drop "cpage=".toList.length
        let ds := r.takeWhile Char.isDigit
        if ds = [] then cpageOf cs else some (digitsToNat ds)
      else cpageOf cs

/-- The anchors scanned by bizinfo getTotalPages:
a[href*="cpage="], .pagination a, .paging a. -/
def bizinfoPaginationAnchors (doc : List Dom) : List ElemCtx :=
  (docCtx doc).filter (fun c =>
    selMatches (selTagAttrSub "a" "href" "cpage=") c.node ||
    (selMatches (selTag "a") c.node &&
      (c.ancestors.any (fun a => selMatches (selCls "pagination") a) ||
       c.ancestors.any (fun a => selMatches (selCls "paging") a))))

/-- getTotalPages of bizinfo.ts: max page number from cpage= parameters and
anchor texts, clamped to 10. -/
def bizinfoGetTotalPages (doc : List Dom) : Int :=
  let maxPage :=
    (bizinfoPaginationAnchors doc).foldl
      (fun acc c =>
        let acc1 :=
          match cpageOf (hrefOf c.node).toList with
          | some n => if (n : Int) > acc then (n : Int) else acc
          | none => acc
        match jsParseIntOpt (strTrim (domText c.node)) with
        | some n => if n > acc1 then n else acc1
        | none => acc1)
      (1 : Int)
  min maxPage 10

/-! ## kstartup parseListPage -/

structure KListItem where
  sourceId : String
  category : String
  title : String
  organization : Option String
  daysRemaining : Option Nat
  applicationEnd : Option JsDate
  viewCount : Option Int
  url : String
deriving Repr, DecidableEq

def kstartupListUrl : String :=
  "https://www.k-startup.go.kr/web/contents/bizpbanc-ongoing.do"

/-- /go_view\((\d+)\)/ over the href. -/
def goViewIdOf : List Char → Option String
  | [] => none
  | c :: cs =>
      if listStartsWith "go_view(".toList (c :: cs) then
        let r := (c :: cs).drop "go_view(".toList.length
        let ds := r.takeWhile Char.isDigit
        if ds ≠ [] && (r.drop ds.length).head? = some ')' then some (String.mk ds)
        else goViewIdOf cs
      else goViewIdOf cs

/-- /D-(\d+)/. -/
def dDayOf : List Char → Option Nat
  | [] => none
  | c :: cs =>
      if listStartsWith "D-".toList (c :: cs) then
        let r := (c :: cs).drop 2
        let ds := r.takeWhile Char.isDigit
        if ds = [] then dDayOf cs else some (digitsToNat ds)
      else dDayOf cs

/-- /조회\s*([\d,]+)/ with the comma strip and parseInt. -/
def viewCountOf : List Char → Option Int
  | [] => none
  | c :: cs =>
      if listStartsWith "조회".toList (c :: cs) then
        let r := ((c :: cs).drop 2).dropWhile isJsSpace
        let run := r.takeWhile (fun x => x.isDigit || x = ',')
        if run = [] then viewCountOf cs
        else jsParseIntOpt (String.mk (run.filter (fun x => x ≠ ',')))
      else viewCountOf cs

def kstartupCategories : List String :=
  ["글로벌", "사업화", "시설ㆍ공간ㆍ보육", "행사ㆍ네트워크", "인력", "R&D",
   "멘토링ㆍ컨설팅", "정책", "판로ㆍ해외진출"]

/-- The 마감일자\s*\d{4}-\d{2}-\d{2} span: (index, length) of its leftmost
match. -/
def deadlineSpanAt (cs : List Char) : Option Nat :=
  if listStartsWith "마감일자".toList cs then
    let r := cs.drop 4
    let sp := r.takeWhile isJsSpace
    match matchIsoYmdChars (r.drop sp.length) with
    | some (m, _) => some (4 + sp.length + m.length)
    | none => none
  else none

def findDeadlineSpan : List Char → Option (Nat × Nat)
  | [] => none
  | c :: cs =>
      match deadlineSpanAt (c :: cs) with
      | some len => some (0, len)
      | none => (findDeadlineSpan cs).map (fun p => (p.1 + 1, p.2))

/-- lastIndexOf of a literal. -/
def lastIndexOfLitGo (lit : List Char) : List Char → Nat → Option Nat
  | [], _ => none
  | c :: cs, i =>
      match lastIndexOfLitGo lit cs (i + 1) with
      | some j => some j
      | none => if listStartsWith lit (c :: cs) then some i else none

/-- The anchored organisation-suffix regex of the title cleanup:
([가-힣]+(?:센터|재단|공단|진흥원|협회|대학교[가-힣]*|산학협력단|연구원))$.
Viability of a Hangul tail segment. -/
def orgViable (xs : List Char) : Bool :=
  (["센터", "재단", "공단", "진흥원", "협회", "산학협력단", "연구원"]).any
    (fun s => xs.length > s.toList.length && listEndsWith s.toList xs) ||
  (List.range xs.length).any
    (fun j => j ≥ 1 && listStartsWith "대학교".toList (xs.drop j))

/-- The whole anchored match: the trailing Hangul run from its leftmost
viable start. -/
def orgMatchAnchored (content : List Char) : Option (List Char) :=
  let run := (content.reverse.takeWhile isHangul).reverse
  ((List.range run.length).find? (fun k => orgViable (run.drop k))).map
    (fun k => run.drop k)

/-- The unanchored organisation regex third alternative, tried at one start
with the suffix beginning after p Hangul characters; alternatives in source
order. -/
def orgAlt3TryAt (cs : List Char) (p : Nat) : Option (List Char) :=
  let tryFixed := fun (s : String) =>
    if listStartsWith s.toList (cs.drop p) then some (cs.take (p + s.toList.length))
    else none
  firstSome
    [tryFixed "센터", tryFixed "재단", tryFixed "공단", tryFixed "진흥원",
     tryFixed "협회",
     (if listStartsWith "대학교".toList (cs.drop p) then
        some (cs.take (p + 3 + ((cs.drop (p + 3)).takeWhile isHangul).length))
      else none),
     tryFixed "산학협력단"]

/-- [가-힣]+(?:...) at one start position: greedy with backtracking over the
length of the leading Hangul run. -/
def orgAlt3At (cs : List Char) : Option (List Char) :=
  let run := cs.takeWhile isHangul
  if run.length < 1 then none
  else
    ((List.range (run.length + 1)).reverse.filter (fun p => p ≥ 1)).findSome?
      (fun p => orgAlt3TryAt cs p)

/-- /(창업진흥원|중소벤처기업부|[가-힣]+(?:센터|재단|공단|진흥원|협회|대학교[가-힣]*|산학협력단))/
leftmost-first over the item text. -/
def kstartupOrgOf : List Char → Option String
  | [] => none
  | c :: cs =>
      match firstSome
        [(if listStartsWith "창업진흥원".toList (c :: cs) then
            some "창업진흥원".toList else none),
         (if listStartsWith "중소벤처기업부".toList (c :: cs) then
            some "중소벤처기업부".toList else none),
         orgAlt3At (c :: cs)] with
      | some m => some (String.mk m)
      | none => kstartupOrgOf cs

/-- parseListPage of kstartup.ts. -/
def kstartupParseListPage (doc : List Dom) : List KListItem :=
  let items :=
    (queryAll doc [selTagAttrSub "a" "href" "go_view"]).foldl
      (fun acc c =>
        match goViewIdOf (hrefOf c.node).toList with
        | none => acc
        | some sourceId =>
          let text := strTrim (domText c.node)
          let daysRemaining := dDayOf text.toList
          let applicationEnd := kstartupParseListDeadline text
          let viewCount := viewCountOf text.toList
          let category :=
            match kstartupCategories.find? (fun cat => strIncludes text cat) with
            | some cat => cat
            | none => ""
          let title :=
            match findDeadlineSpan text.toList with
            | some (idx, len) =>
                let content0 := strTrim (String.mk (text.toList.drop (idx + len)))
                let content :=
                  match lastIndexOfLitGo "조회".toList content0.toList 0 with
                  | some vi =>
                      if vi > 0 then strTrim (strTake content0 vi) else content0
                  | none => content0
                let afterOrg :=
                  match orgMatchAnchored content.toList with
                  | some possibleOrg =>
                      if listEndsWith possibleOrg content.toList &&
                         content.length > possibleOrg.length + 2 then
                        strTrim (strTake content (content.length - possibleOrg.length))
                      else content
                  | none => content
                cleanTitle afterOrg
            | none => ""
          let organization := kstartupOrgOf text.toList
          if sourceId ≠ "" && (title ≠ "" || text.length > 20) then
            acc ++ [{ sourceId,
                      category := if category ≠ "" then category else "기타",
                      title := cleanTitle (if title ≠ "" then title else strTake text 100),
                      organization, daysRemaining, applicationEnd, viewCount,
                      url := kstartupListUrl ++ "?schM=view&pbancSn=" ++ sourceId }]
          else acc)
      []
  dedupByKey KListItem.sourceId items

/-- getTotalPages of kstartup.ts: anchor texts only, clamped to 10. -/
def kstartupGetTotalPages (doc : List Dom) : Int :=
  let maxPage :=
    ((docCtx doc).filter (fun c =>
        selMatches (selTagAttrSub "a" "href" "fn_pageMove") c.node ||
        (selMatches (selTag "a") c.node &&
          (c.ancestors.any (fun a => selMatches (selCls "pagination") a) ||
           c.ancestors.any (fun a => selMatches (selCls "paging") a))))).foldl
      (fun acc c =>
        match jsParseIntOpt (strTrim (domText c.node)) with
        | some n => if n > acc then n else acc
        | none => acc)
      (1 : Int)
  min maxPage 10

/-! ## kstartup parseDetailPage (kstartup.ts lines 225-393) -/

structure KDetailData where
  title : Option String := none
  description : Option String := none
  eligibility : Option String := none
  region : Option String := none
  targetAge : Option String := none
  targetRegion : Option String := none
  targetType : Option String := none
  companyAge : Option String := none
  supportField : Option String := none
  institutionType : Option String := none
  applicationStart : Option JsDate := none
  applicationEnd : Option JsDate := none
  organization : Option String := none

/-- The startsWith label chain of the summary pass (kstartup lines 252-279). -/
def kstartupLabelChains (d : KDetailData) (text : String) : KDetailData :=
  if strStartsWith text "지원분야" then
    { d with supportField := some (strTrim (replaceFirstLit "지원분야" text)) }
  else if strStartsWith text "대상연령" then
    { d with targetAge := some (strTrim (replaceFirstLit "대상연령" text)) }
  else if strStartsWith text "지역" && !strIncludes text "지역구분" then
    { d with targetRegion := some (strTrim (replaceFirstLit "지역" text)) }
  else if strStartsWith text "대상" && !strIncludes text "대상연령" then
    { d with targetType := some (strTrim (replaceFirstLit "대상" text)) }
  else if strStartsWith text "창업업력" then
    { d with companyAge := some (strTrim (replaceFirstLit "창업업력" text)) }
  else if strStartsWith text "기관구분" then
    { d with institutionType := some (strTrim (replaceFirstLit "기관구분" text)) }
  else if strStartsWith text "주관기관명" then d
  else if strStartsWith text "접수기간" then
    let periodStr := strTrim (replaceFirstLit "접수기간" text)
    match kstartupParsePeriod periodStr with
    | some p => { d with applicationStart := some p.1, applicationEnd := some p.2 }
    | none => d
  else d

/-- The th/td table chain, filling only unset fields (lines 292-304). -/
def kstartupTableChains (d : KDetailData) (header value : String) : KDetailData :=
  if strIncludes header "지원분야" && !jsTruthyOptStr d.supportField then
    { d with supportField := some value }
  else if strIncludes header "대상연령" && !jsTruthyOptStr d.targetAge then
    { d with targetAge := some value }
  else if header = "지역" && !jsTruthyOptStr d.targetRegion then
    { d with targetRegion := some value }
  else if header = "대상" && !jsTruthyOptStr d.targetType then
    { d with targetType := some value }
  else if strIncludes header "창업업력" && !jsTruthyOptStr d.companyAge then
    { d with companyAge := some value }
  else if strIncludes header "기관구분" && !jsTruthyOptStr d.institutionType then
    { d with institutionType := some value }
  else d

def eligibilityKeywords : List String :=
  ["지원대상", "신청자격", "지원자격", "참여자격", "모집대상", "신청대상"]

/-- One information_list block appended to the description (lines 337-361). -/
def kstartupInfoBlock (desc : String) (el : Dom) : String :=
  let title := getCleanTextMany (findIn el [selTagCls "p" "title"])
  let desc1 := if title ≠ "" then desc ++ "\n### " ++ title ++ "\n" else desc
  let listItems := findIn el [selTagCls "li" "dot_list"]
  if !listItems.isEmpty then
    listItems.foldl
      (fun acc li =>
        let subTitle := getCleanTextMany (findIn li [selCls "tit"])
        let txt := getCleanTextMany (findIn li [selCls "txt"])
        if subTitle ≠ "" then acc ++ "- **" ++ subTitle ++ "**: " ++ txt ++ "\n"
        else acc ++ "- " ++ (if txt ≠ "" then txt else getCleanText li) ++ "\n")
      desc1
  else
    let txt0 := getCleanTextMany (findIn el [selCls "txt"])
    let txt := if txt0 ≠ "" then txt0 else getCleanText el
    let cleanTxt := strTrim (replaceFirstLit title txt)
    if cleanTxt ≠ "" then desc1 ++ cleanTxt ++ "\n" else desc1

/-- parseDetailPage of kstartup.ts. -/
def kstartupParseDetailPage (doc : List Dom) : KDetailData :=
  let d0 : KDetailData :=
    match (queryDescAll doc [(selId "scrTitle", selTag "h3"),
                             (selCls "title", selTag "h3")]).head? with
    | some c => { title := some (cleanTitle (domText c.node)) }
    | none =>
        match (queryAll doc [selTagCls "h1" "view_tit", selCls "view_title",
                             selCls "cont_tit"]).head? with
        | some c => { title := some (cleanTitle (domText c.node)) }
        | none => {}
  let d1 :=
    (queryAll doc [selTag "li", selTag "span"]).foldl
      (fun acc c =>
        let text := getCleanText c.node
        if strStartsWith text "주관기관명" then
          { acc with organization := some (strTrim (replaceFirstLit "주관기관명" text)) }
        else acc)
      d0
  let d2 :=
    (queryAll doc [selTag "li", selTagCls "div" "info_item", selTag "span",
                   selTag "dt", selTag "th"]).foldl
      (fun acc c => kstartupLabelChains acc (getCleanText c.node))
      d1
  let d3 :=
    ((docCtx doc).filter (fun c =>
        (selMatches (selTag "tr") c.node && c.ancestors.any (fun a => selMatches (selTag "table") a)) ||
        selMatches (selTag "dl") c.node)).foldl
      (fun acc c =>
        let header := getCleanTextOpt (findIn c.node [selTag "th", selTag "dt"]).head?
        let value := getCleanTextOpt (findIn c.node [selTag "td", selTag "dd"]).head?
        if header = "" || value = "" then acc
        else kstartupTableChains acc header value)
      d2
  let d4 :=
    (queryAll doc [selTag "th", selTag "dt", selTag "strong", selTag "b",
                   selTag "h3", selTag "h4"]).foldl
      (fun acc c =>
        let headerText := getCleanText c.node
        if eligibilityKeywords.any (fun kw => strIncludes headerText kw) then
          let content :=
            match nextElem c with
            | some nxt => getCleanText nxt
            | none =>
                match closestSel c [selTag "tr", selTag "dl", selTag "div"] with
                | some parentRow =>
                    getCleanTextMany (findIn parentRow [selTag "td", selTag "dd", selTag "p"])
                | none => ""
          if content ≠ "" && (!jsTruthyOptStr acc.eligibility ||
              content.length > (jsStrOrEmpty acc.eligibility).length) then
            { acc with eligibility := some content }
          else acc
        else acc)
      d3
  let infoWrap := queryAll doc [selCls "information_list-wrap", selCls "view_editor"]
  let d5 :=
    if !infoWrap.isEmpty then
      let infoLists := (infoWrap.map (fun c => findIn c.node [selCls "information_list"])).flatten
      let desc0 := infoLists.foldl kstartupInfoBlock ""
      let desc :=
        if desc0 = "" && infoWrap.any (fun c => domHasClass c.node "view_editor") then
          getCleanTextMany (infoWrap.map ElemCtx.node)
        else desc0
      if (strTrim desc).length > 20 then { d4 with description := some desc } else d4
    else d4
  let d6 :=
    if !jsTruthyOptStr d5.description then
      (queryAll doc [selTagCls "div" "cont_box", selTagCls "div" "view_cont",
                     selTagCls "div" "content", selTag "section"]).foldl
        (fun acc c =>
          if jsTruthyOptStr acc.description then acc
          else
            let t := getCleanText c.node
            if t.length > 50 then { acc with description := some t } else acc)
        d5
    else d5
  let d7 :=
    if jsTruthyOptStr d6.description then
      { d6 with description := d6.description.map (fun s => strTake s 5000) }
    else d6
  let d8 :=
    if jsTruthyOptStr d7.eligibility then
      { d7 with eligibility := d7.eligibility.map (fun s => strTake s 2000) }
    else d7
  if jsTruthyOptStr d8.title then
    { d8 with title := d8.title.map (fun s => strTake s 500) }
  else d8

/-! ## Measures of a crawl run (for the error-accumulation property) -/

def itemOk : Except String Unit → Bool
  | Except.ok _ => true
  | Except.error _ => false

def itemOkCount : List (String × Except String Unit) → Nat
  | [] => 0
  | p :: rest => (if itemOk p.2 then 1 else 0) + itemOkCount rest

def itemErrMsgs : List (String × Except String Unit) → List String
  | [] => []
  | p :: rest =>
      match p.2 with
      | Except.error e => ("공고 " ++ p.1 ++ " 처리 실패: " ++ e) :: itemErrMsgs rest
      | Except.ok _ => itemErrMsgs rest

def pagesOkCount : List (Except String (List (String × Except String Unit))) → Nat
  | [] => 0
  | Except.error _ :: rest => pagesOkCount rest
  | Except.ok items :: rest => itemOkCount items + pagesOkCount rest

def pagesErrMsgs : Nat → List (Except String (List (String × Except String Unit))) → List String
  | _, [] => []
  | pn, Except.error e :: rest =>
      ("페이지 " ++ toString pn ++ " 크롤링 실패: " ++ e) :: pagesErrMsgs (pn + 1) rest
  | pn, Except.ok items :: rest => itemErrMsgs items ++ pagesErrMsgs (pn + 1) rest

/-! # Theorems -/

/-! ## C1: date-range normalisation -/

theorem jsDateOfIso_time (s : String) (d : JsDate) (h : jsDateOfIsoDateOnly s = some d) :
    d.hour = 0 ∧ d.minute = 0 ∧ d.second = 0 := by
  unfold jsDateOfIsoDateOnly at h
  split at h
  · rename_i m heq
    rcases hp : ymdOfChars m with ⟨y, mo, dd⟩
    rw [hp] at h
    simp only [Option.some.injEq] at h
    subst h
    exact ⟨rfl, rfl, rfl⟩
  · exact absurd h (by simp)

/-- C1 counterexample: on the exact input of the claim the kstartup
detail-page period extraction leaves the end date at 00:00:00, not the
claimed 23:59:59 (new Date("YYYY-MM-DD") keeps midnight). -/
theorem kstartup_period_end_not_end_of_day :
    kstartupParsePeriod "2026-01-06 ~ 2026-01-27" =
      some (⟨2026, 0, 6, 0, 0, 0⟩, ⟨2026, 0, 27, 0, 0, 0⟩) ∧
    kstartupParsePeriod "2026-01-06 ~ 2026-01-27" ≠
      some (⟨2026, 0, 6, 0, 0, 0⟩, ⟨2026, 0, 27, 23, 59, 59⟩) := by
  constructor
  · rfl
  · decide

/-- C1 (amended): the bizinfo date parsing normalises end dates to 23:59:59
and start dates to 00:00:00, and the claim's example holds for the bizinfo
period extraction; the kstartup period extraction instead stores both dates
at 00:00:00 (new Date of a date-only ISO string), so its end date is not
normalised to end-of-day. -/
theorem date_range_normalization :
    (∀ s d, parseDate s true = some d → d.hour = 23 ∧ d.minute = 59 ∧ d.second = 59) ∧
    (∀ s d, parseDate s false = some d → d.hour = 0 ∧ d.minute = 0 ∧ d.second = 0) ∧
    bizinfoParsePeriod "2026-01-06 ~ 2026-01-27" =
      some (some ⟨2026, 0, 6, 0, 0, 0⟩, some ⟨2026, 0, 27, 23, 59, 59⟩) ∧
    (∀ s p, kstartupParsePeriod s = some p →
       p.1.hour = 0 ∧ p.1.minute = 0 ∧ p.1.second = 0 ∧
       p.2.hour = 0 ∧ p.2.minute = 0 ∧ p.2.second = 0) ∧
    kstartupParsePeriod "2026-01-06 ~ 2026-01-27" =
      some (⟨2026, 0, 6, 0, 0, 0⟩, ⟨2026, 0, 27, 0, 0, 0⟩) := by
  refine ⟨?_, ?_, rfl, ?_, rfl⟩
  · intro s d h
    unfold parseDate at h
    split at h
    · exact absurd h (by simp)
    · split at h
      · rename_i m heq
        rcases hp : ymdOfChars m with ⟨y, mo, dd⟩
        rw [hp] at h
        simp only [if_true, Option.some.injEq] at h
        subst h
        exact ⟨rfl, rfl, rfl⟩
      · exact absurd h (by simp)
  · intro s d h
    unfold parseDate at h
    split at h
    · exact absurd h (by simp)
    · split at h
      · rename_i m heq
        rcases hp : ymdOfChars m with ⟨y, mo, dd⟩
        rw [hp] at h
        simp only [Bool.false_eq_true, if_false, Option.some.injEq] at h
        subst h
        exact ⟨rfl, rfl, rfl⟩
      · exact absurd h (by simp)
  · intro s p h
    unfold kstartupParsePeriod at h
    split at h
    · rename_i c1 c2 heq
      split at h
      · rename_i d1 d2 h1 h2
        simp only [Option.some.injEq] at h
        subst h
        have t1 := jsDateOfIso_time _ _ h1
        have t2 := jsDateOfIso_time _ _ h2
        exact ⟨t1.1, t1.2.1, t1.2.2, t2.1, t2.2.1, t2.2.2⟩
      · exact absurd h (by simp)
    · exact absurd h (by simp)

/-- C1 witness: the amended theorem applied at a concrete end date. -/
theorem date_range_normalization_witness :
    ∃ d, parseDate "2026-01-27" true = some d ∧
      d.hour = 23 ∧ d.minute = 59 ∧ d.second = 59 :=
  ⟨⟨2026, 0, 27, 23, 59, 59⟩, rfl,
   date_range_normalization.1 "2026-01-27" ⟨2026, 0, 27, 23, 59, 59⟩ rfl⟩

/-! ## C2: LLM response defaulting -/

/-- C2 counterexample: on the JSON-parse-failure path parseLlmResponse
returns empty strings, not the non-empty sentinels the claim requires. -/
theorem parse_failure_yields_empty_fields :
    (parseLlmResponse "not json").targetRegion = Json.str "" ∧
    (parseLlmResponse "not json").targetRegion ≠ Json.str "전국" ∧
    (parseLlmResponse "not json").companyAge = Json.str "" ∧
    (parseLlmResponse "not json").companyAge ≠ Json.str "무관" := by
  refine ⟨rfl, ?_, rfl, ?_⟩ <;>
    · intro h
      injection h with h2
      exact absurd h2 (by decide)

/-- C2 (amended): parseLlmResponse is total (never throws).  On a successful
JSON.parse of a non-null value, a missing or blank matching field receives
its non-empty sentinel (전국 for targetRegion, 무관 for companyAge and
targetAge, 전분야 for targetIndustry) while aiSummary (and exclusionDetail)
default to the empty string; on a JSON.parse failure — or a parsed null,
whose property access throws into the same catch — every field of the
returned record is the empty string, not a sentinel. -/
theorem llm_response_defaulting :
    (∀ text parsed, jsonParse text = some parsed → parsed ≠ Json.null →
       ((jsTruthy (jsField parsed "targetRegion") = false →
           (parseLlmResponse text).targetRegion = Json.str "전국") ∧
        (jsTruthy (jsField parsed "companyAge") = false →
           (parseLlmResponse text).companyAge = Json.str "무관") ∧
        (jsTruthy (jsField parsed "targetAge") = false →
           (parseLlmResponse text).targetAge = Json.str "무관") ∧
        (jsTruthy (jsField parsed "targetIndustry") = false →
           (parseLlmResponse text).targetIndustry = Json.str "전분야") ∧
        (jsTruthy (jsField parsed "aiSummary") = false →
           (parseLlmResponse text).aiSummary = Json.str ""))) ∧
    (∀ text, jsonParse text = none → parseLlmResponse text = emptyTargetRecord) ∧
    (∀ text, jsonParse text = some Json.null → parseLlmResponse text = emptyTargetRecord) ∧
    (parseLlmResponse "\x7b\"companyAge\": \"3년 미만\"\x7d").targetRegion = Json.str "전국" := by
  refine ⟨?_, ?_, ?_, rfl⟩
  · intro text parsed hp hnn
    rcases parsed with _ | b | l | s | xs | fs
    · exact absurd rfl hnn
    all_goals refine ⟨?_, ?_, ?_, ?_, ?_⟩ <;> (intro hf; simp [parseLlmResponse, hp, jsOr, hf])
  · intro text hp
    simp [parseLlmResponse, hp]
  · intro text hp
    simp [parseLlmResponse, hp]

/-- C2 witness: the amended theorem applied to a response missing the
targetRegion key. -/
theorem llm_response_defaulting_witness :
    (parseLlmResponse "\x7b\"companyAge\": \"3년 미만\"\x7d").targetRegion = Json.str "전국" :=
  (llm_response_defaulting.1 "\x7b\"companyAge\": \"3년 미만\"\x7d"
      (Json.obj [("companyAge", Json.str "3년 미만")]) rfl
      (fun h => Json.noConfusion h)).1 rfl

/-! ## C3: the vision fallback trigger -/

theorem option_isSome_false_iff (o : Option α) : o.isSome = false ↔ o = none := by
  cases o <;> simp

/-- C3: after structural extraction and the text-LLM merge, the vision tier
is invoked iff rendering is enabled, a browser is available, and one of the
four critical fields (companyAge, targetRegion, applicationStart,
applicationEnd) is still absent/blank on the bag; with all four present it
is never invoked. -/
theorem vision_fallback_trigger :
    ∀ (parsed : DetailData) (tt vt : Option ApplicationTarget) (up bp : Bool)
      (d1 : DetailData),
      d1 = bizinfoTextMerge (bizinfoKeywordStep parsed) tt →
      (((bizinfoEnrich parsed tt up bp vt).2 = true ↔
         (up = true ∧ bp = true ∧
           (jsTruthyOptJson d1.companyAge = false ∨
            jsTruthyOptJson d1.targetRegion = false ∨
            d1.applicationStart = none ∨
            d1.applicationEnd = none))) ∧
       ((jsTruthyOptJson d1.companyAge = true ∧ jsTruthyOptJson d1.targetRegion = true ∧
         d1.applicationStart.isSome = true ∧ d1.applicationEnd.isSome = true) →
        (bizinfoEnrich parsed tt up bp vt).2 = false)) := by
  intro parsed tt vt up bp d1 h1
  subst h1
  constructor
  · simp only [bizinfoEnrich, missingCritical, Bool.and_eq_true, Bool.or_eq_true,
               Bool.not_eq_true', option_isSome_false_iff]
    tauto
  · rintro ⟨h1, h2, h3, h4⟩
    simp [bizinfoEnrich, missingCritical, h1, h2, h3, h4]

/-- C3 witness: the trigger theorem applied to a record lacking only
companyAge (fires) and to a record with all four critical fields (does not
fire). -/
theorem vision_fallback_trigger_witness :
    (bizinfoEnrich { targetRegion := some (Json.str "서울"),
                     applicationStart := some ⟨2026, 0, 6, 0, 0, 0⟩,
                     applicationEnd := some ⟨2026, 0, 27, 23, 59, 59⟩ }
        none true true none).2 = true ∧
    (bizinfoEnrich { companyAge := some (Json.str "7년 미만"),
                     targetRegion := some (Json.str "서울"),
                     applicationStart := some ⟨2026, 0, 6, 0, 0, 0⟩,
                     applicationEnd := some ⟨2026, 0, 27, 23, 59, 59⟩ }
        none true true none).2 = false := by
  constructor
  · exact ((vision_fallback_trigger _ none none true true _ rfl).1).mpr
      ⟨rfl, rfl, Or.inl rfl⟩
  · exact (vision_fallback_trigger _ none none true true _ rfl).2 ⟨rfl, rfl, rfl, rfl⟩

/-! ## C4: the text-LLM merge policy -/

/-- C4 counterexample: a record whose structural extraction already found a
non-empty targetRegion (서울) loses it to the text-LLM value (전국) — the
merge overwrites instead of only filling. -/
theorem text_merge_overwrites_structural :
    (bizinfoEnrich { targetRegion := some (Json.str "서울") }
        (some { aiSummary := Json.str "", companyAge := Json.str "무관",
                targetRegion := Json.str "전국", targetAge := Json.str "무관",
                targetIndustry := Json.str "전분야", exclusionDetail := Json.str "" })
        false false none).1.targetRegion = some (Json.str "전국") ∧
    (bizinfoEnrich { targetRegion := some (Json.str "서울") }
        (some { aiSummary := Json.str "", companyAge := Json.str "무관",
                targetRegion := Json.str "전국", targetAge := Json.str "무관",
                targetIndustry := Json.str "전분야", exclusionDetail := Json.str "" })
        false false none).1.targetRegion ≠ some (Json.str "서울") := by
  constructor
  · rfl
  · intro h
    injection h with h1
    injection h1 with h2
    exact absurd h2 (by decide)

/-- C4 (amended): when the text-LLM strategy returns a record, its
companyAge, targetRegion, targetAge and targetIndustry values are assigned
into the bag unconditionally (overwriting any structural value); the
supportField is never taken from the text-LLM record (the guard exists but
the record has no supportField member); a null result leaves the bag
unchanged; and the strategy returns null when both input texts are empty. -/
theorem text_merge_semantics :
    (∀ (d : DetailData) (t : ApplicationTarget),
       (bizinfoTextMerge d (some t)).companyAge = some t.companyAge ∧
       (bizinfoTextMerge d (some t)).targetRegion = some t.targetRegion ∧
       (bizinfoTextMerge d (some t)).targetAge = some t.targetAge ∧
       (bizinfoTextMerge d (some t)).targetIndustry = some t.targetIndustry ∧
       (bizinfoTextMerge d (some t)).supportField = d.supportField ∧
       (bizinfoTextMerge d (some t)).llmProcessed = true) ∧
    (∀ d, bizinfoTextMerge d none = d) ∧
    (∀ apiKey resp, extractApplicationTarget apiKey "" "" resp = none) := by
  refine ⟨?_, ?_, ?_⟩
  · intro d t
    refine ⟨?_, ?_, ?_, ?_, ?_, ?_⟩ <;>
      simp [bizinfoTextMerge, llmSupportField, jsTruthy]
  · intro d
    rfl
  · intro apiKey resp
    cases apiKey <;> simp [extractApplicationTarget]

/-! ## C5: llmProcessed -/

/-- C5 counterexample: the batch endpoint writes llmProcessed = true even
for a null LLM result, and the crawl path sets it for the defaulted record a
JSON parse failure produces — both contradict "true only if a parseable
structured result came back". -/
theorem llm_processed_without_result :
    (processLlmWrite none).llmProcessed = true ∧
    (processLlmWrite none).applicationTarget = none ∧
    (bizinfoEnrich {} (some (parseLlmResponse "not json")) false false none).1.llmProcessed
      = true :=
  ⟨rfl, rfl, rfl⟩

theorem keywordStep_llmProcessed (d : DetailData) :
    (bizinfoKeywordStep d).llmProcessed = d.llmProcessed := by
  unfold bizinfoKeywordStep
  split <;> rfl

theorem textMerge_llmProcessed (d : DetailData) (tt : Option ApplicationTarget) :
    (bizinfoTextMerge d tt).llmProcessed = (tt.isSome || d.llmProcessed) := by
  cases tt <;> rfl

theorem visionMerge_llmProcessed (d : DetailData) (vt : Option ApplicationTarget) :
    (bizinfoVisionMerge d vt).llmProcessed = (vt.isSome || d.llmProcessed) := by
  cases vt <;> rfl

/-- C5 (amended): on the crawl path llmProcessed ends up true iff the
text-LLM call returned a record — including the defaulted record produced on
a parse failure, since parseLlmResponse swallows the exception — or the
vision tier was invoked and returned a record; the batch endpoint writes
llmProcessed = true unconditionally, even for a null result. -/
theorem llm_processed_semantics :
    (∀ (d : DetailData) (tt vt : Option ApplicationTarget) (up bp : Bool),
        d.llmProcessed = false →
        ((bizinfoEnrich d tt up bp vt).1.llmProcessed = true ↔
          (tt.isSome = true ∨
           ((bizinfoEnrich d tt up bp vt).2 = true ∧ vt.isSome = true)))) ∧
    (∀ target, (processLlmWrite target).llmProcessed = true) ∧
    (∀ resp, extractApplicationTarget true "x" "" (some resp) =
        some (parseLlmResponse resp)) := by
  refine ⟨?_, fun _ => rfl, fun _ => rfl⟩
  intro d tt vt up bp hd
  simp only [bizinfoEnrich]
  split
  · rename_i hcond
    simp [visionMerge_llmProcessed, textMerge_llmProcessed, keywordStep_llmProcessed,
          hd, hcond]
    cases tt <;> cases vt <;> simp
  · rename_i hcond
    simp only [Bool.not_eq_true] at hcond
    simp [textMerge_llmProcessed, keywordStep_llmProcessed, hd, hcond]

/-- C5 witness: the crawl-path characterisation applied to a record coming
back from the text strategy. -/
theorem llm_processed_semantics_witness :
    (bizinfoEnrich {} (some emptyTargetRecord) false false none).1.llmProcessed = true :=
  (llm_processed_semantics.1 {} (some emptyTargetRecord) none false false rfl).mpr
    (Or.inl rfl)

/-! ## C7: fetch retry policy -/

/-- C7 counterexample: a fetch whose first attempt fails and whose second
would succeed — the kstartup fetcher fails immediately after one attempt,
while the claimed 3-attempt policy (which bizinfo implements) succeeds. -/
theorem kstartup_fetch_no_retry :
    (kstartupFetchPage
        (fun n => if n = 0 then FetchOutcome.netErr else FetchOutcome.ok "html")).result
      = none ∧
    (kstartupFetchPage
        (fun n => if n = 0 then FetchOutcome.netErr else FetchOutcome.ok "html")).attempts
      = 1 ∧
    (bizinfoFetchPage
        (fun n => if n = 0 then FetchOutcome.netErr else FetchOutcome.ok "html")).result
      = some "html" :=
  ⟨rfl, rfl, rfl⟩

/-- C7 (amended): the bizinfo fetchers retry with up to 3 attempts and a
2000·attempt backoff, treating any failure (non-2xx status included) as
retryable and failing only after the third attempt; the kstartup fetchers
make exactly one attempt and fail immediately. -/
theorem fetch_retry_semantics :
    (∀ o h, o 0 = FetchOutcome.ok h → bizinfoFetchPage o = ⟨some h, 1, []⟩) ∧
    (∀ o h, (o 0).isOk = false → o 1 = FetchOutcome.ok h →
        bizinfoFetchPage o = ⟨some h, 2, [2000]⟩) ∧
    (∀ o h, (o 0).isOk = false → (o 1).isOk = false → o 2 = FetchOutcome.ok h →
        bizinfoFetchPage o = ⟨some h, 3, [2000, 4000]⟩) ∧
    (∀ o, (o 0).isOk = false → (o 1).isOk = false → (o 2).isOk = false →
        bizinfoFetchPage o = ⟨none, 3, [2000, 4000, 6000]⟩) ∧
    (∀ s, (FetchOutcome.httpErr s).isOk = false) ∧
    (∀ o h, o 0 = FetchOutcome.ok h → kstartupFetchPage o = ⟨some h, 1, []⟩) ∧
    (∀ o, (o 0).isOk = false → kstartupFetchPage o = ⟨none, 1, []⟩) := by
  refine ⟨?_, ?_, ?_, ?_, fun _ => rfl, ?_, ?_⟩
  · intro o h h0
    simp [bizinfoFetchPage, bizinfoFetchGo, h0]
  · intro o h h0 h1
    cases ho : o 0 with
    | ok h' => rw [ho] at h0; simp [FetchOutcome.isOk] at h0
    | httpErr st => simp [bizinfoFetchPage, bizinfoFetchGo, ho, h1]
    | netErr => simp [bizinfoFetchPage, bizinfoFetchGo, ho, h1]
  · intro o h h0 h1 h2
    cases ho : o 0 with
    | ok h' => rw [ho] at h0; simp [FetchOutcome.isOk] at h0
    | httpErr st =>
        cases ho1 : o 1 with
        | ok h' => rw [ho1] at h1; simp [FetchOutcome.isOk] at h1
        | httpErr st2 => simp [bizinfoFetchPage, bizinfoFetchGo, ho, ho1, h2]
        | netErr => simp [bizinfoFetchPage, bizinfoFetchGo, ho, ho1, h2]
    | netErr =>
        cases ho1 : o 1 with
        | ok h' => rw [ho1] at h1; simp [FetchOutcome.isOk] at h1
        | httpErr st2 => simp [bizinfoFetchPage, bizinfoFetchGo, ho, ho1, h2]
        | netErr => simp [bizinfoFetchPage, bizinfoFetchGo, ho, ho1, h2]
  · intro o h0 h1 h2
    cases ho : o 0 with
    | ok h' => rw [ho] at h0; simp [FetchOutcome.isOk] at h0
    | httpErr st =>
        cases ho1 : o 1 with
        | ok h' => rw [ho1] at h1; simp [FetchOutcome.isOk] at h1
        | httpErr st2 =>
            cases ho2 : o 2 with
            | ok h' => rw [ho2] at h2; simp [FetchOutcome.isOk] at h2
            | httpErr st3 => simp [bizinfoFetchPage, bizinfoFetchGo, ho, ho1, ho2]
            | netErr => simp [bizinfoFetchPage, bizinfoFetchGo, ho, ho1, ho2]
        | netErr =>
            cases ho2 : o 2 with
            | ok h' => rw [ho2] at h2; simp [FetchOutcome.isOk] at h2
            | httpErr st3 => simp [bizinfoFetchPage, bizinfoFetchGo, ho, ho1, ho2]
            | netErr => simp [bizinfoFetchPage, bizinfoFetchGo, ho, ho1, ho2]
    | netErr =>
        cases ho1 : o 1 with
        | ok h' => rw [ho1] at h1; simp [FetchOutcome.isOk] at h1
        | httpErr st2 =>
            cases ho2 : o 2 with
            | ok h' => rw [ho2] at h2; simp [FetchOutcome.isOk] at h2
            | httpErr st3 => simp [bizinfoFetchPage, bizinfoFetchGo, ho, ho1, ho2]
            | netErr => simp [bizinfoFetchPage, bizinfoFetchGo, ho, ho1, ho2]
        | netErr =>
            cases ho2 : o 2 with
            | ok h' => rw [ho2] at h2; simp [FetchOutcome.isOk] at h2
            | httpErr st3 => simp [bizinfoFetchPage, bizinfoFetchGo, ho, ho1, ho2]
            | netErr => simp [bizinfoFetchPage, bizinfoFetchGo, ho, ho1, ho2]
  · intro o h h0
    simp [kstartupFetchPage, h0]
  · intro o h0
    cases ho : o 0 with
    | ok h' => rw [ho] at h0; simp [FetchOutcome.isOk] at h0
    | httpErr st => simp [kstartupFetchPage, ho]
    | netErr => simp [kstartupFetchPage, ho]

/-- C7 witness: the retry characterisation applied to an oracle whose three
attempts all return HTTP 500. -/
theorem fetch_retry_semantics_witness :
    bizinfoFetchPage (fun _ => FetchOutcome.httpErr 500) = ⟨none, 3, [2000, 4000, 6000]⟩ :=
  fetch_retry_semantics.2.2.2.1 (fun _ => FetchOutcome.httpErr 500) rfl rfl rfl

/-! ## C8: the chunk cap -/

theorem chunkGo_length_le :
    ∀ (rem captured finalHeight : Nat) (acc : List Nat),
      (chunkGo rem captured finalHeight acc).length ≤ acc.length + rem := by
  intro rem
  induction rem with
  | zero => intro c f acc; simp [chunkGo]
  | succ n ih =>
      intro c f acc
      simp only [chunkGo]
      split
      · calc (chunkGo n (c + min CHUNK_HEIGHT (f - c)) f
                (acc ++ [min CHUNK_HEIGHT (f - c)])).length
            ≤ (acc ++ [min CHUNK_HEIGHT (f - c)]).length + n := ih _ _ _
          _ = acc.length + (n + 1) := by simp [List.length_append]; omega
      · omega

/-- C8: the chunked capture produces at most MAX_CHUNKS = 6 chunks for every
measured content height (clamped or not), and at the maximum clamped height
of 20000 it stops at exactly 6 chunks with 18000 of the 20000 pixels
captured — content remains uncaptured. -/
theorem chunk_capture_cap :
    (∀ h, (captureChunks h).length ≤ MAX_CHUNKS) ∧
    (∀ h, (captureChunks (clampHeight h)).length ≤ MAX_CHUNKS) ∧
    captureChunks 20000 = [3000, 3000, 3000, 3000, 3000, 3000] ∧
    (captureChunks 20000).sum = 18000 ∧
    (captureChunks 20000).sum < 20000 := by
  refine ⟨?_, ?_, rfl, rfl, by decide⟩
  · intro h
    have := chunkGo_length_le MAX_CHUNKS 0 h []
    simpa [captureChunks] using this
  · intro h
    have := chunkGo_length_le MAX_CHUNKS 0 (clampHeight h) []
    simpa [captureChunks] using this

/-! ## C9: error accumulation -/

theorem processPageItems_none_spec :
    ∀ (items : List (String × Except String Unit)) (s t : Nat) (errs : List String),
      processPageItems none items s t errs =
        (s + itemOkCount items, t + itemOkCount items, errs ++ itemErrMsgs items) := by
  intro items
  induction items with
  | nil => intro s t errs; simp [processPageItems, itemOkCount, itemErrMsgs]
  | cons p rest ih =>
      intro s t errs
      rcases p with ⟨sid, r⟩
      cases r with
      | ok u =>
          simp [processPageItems, limitReached, itemOk, itemOkCount, itemErrMsgs, ih,
                Nat.add_comm, Nat.add_left_comm, Nat.add_assoc]
      | error e =>
          simp [processPageItems, limitReached, itemOk, itemOkCount, itemErrMsgs, ih,
                List.append_assoc]

theorem crawlPagesGo_none_spec :
    ∀ (pages : List (Except String (List (String × Except String Unit))))
      (s t pn : Nat) (errs : List String),
      crawlPagesGo none pages s t pn errs =
        (s + pagesOkCount pages, errs ++ pagesErrMsgs pn pages) := by
  intro pages
  induction pages with
  | nil => intro s t pn errs; simp [crawlPagesGo, pagesOkCount, pagesErrMsgs]
  | cons pg rest ih =>
      intro s t pn errs
      cases pg with
      | error e =>
          simp [crawlPagesGo, pagesOkCount, pagesErrMsgs, ih, List.append_assoc]
      | ok items =>
          simp [crawlPagesGo, processPageItems_none_spec, pagesOkCount, pagesErrMsgs,
                ih, List.append_assoc, Nat.add_comm, Nat.add_left_comm, Nat.add_assoc]

/-- C9: per-item and per-page failures are each turned into one
human-readable error entry and never abort the rest of the run: an unlimited
crawl returns count = the number of successfully processed items across all
pages and exactly the accumulated error messages (success iff none); an item
error continues with the next item of the same page, a page error continues
with the next page; and a detail fetch whose 3 attempts all fail is exactly
the item failure of the concrete run shown, which still processes the next
item. -/
theorem crawl_error_accumulation :
    (∀ pages, crawlRun none pages =
       ⟨(pagesErrMsgs 1 pages).isEmpty, pagesOkCount pages, pagesErrMsgs 1 pages⟩) ∧
    (∀ (sid e : String) rest (s t : Nat) (errs : List String),
       processPageItems none ((sid, Except.error e) :: rest) s t errs =
         processPageItems none rest s t (errs ++ ["공고 " ++ sid ++ " 처리 실패: " ++ e])) ∧
    (∀ (e : String) rest (s t pn : Nat) (errs : List String),
       crawlPagesGo none (Except.error e :: rest) s t pn errs =
         crawlPagesGo none rest s t (pn + 1)
           (errs ++ ["페이지 " ++ toString pn ++ " 크롤링 실패: " ++ e])) ∧
    (bizinfoFetchPage (fun _ => FetchOutcome.httpErr 500)).result = none ∧
    crawlRun none [Except.ok [("A", Except.error "HTTP 500"), ("B", Except.ok ())]] =
      ⟨false, 1, ["공고 A 처리 실패: HTTP 500"]⟩ := by
  refine ⟨?_, fun _ _ _ _ _ _ => rfl, fun _ _ _ _ _ _ => rfl, rfl, rfl⟩
  intro pages
  simp [crawlRun, crawlPagesGo_none_spec]

/-! ## C10: the applicationTarget frame effect -/

/-- C10: the bizinfo upsert's update branch writes applicationTarget = null
unconditionally, so the applicationTarget JSON a batch LLM pass stored is
erased by the next crawl of the same record, whether or not any LLM strategy
ran in that pass. -/
theorem application_target_erased_on_recrawl :
    (∀ old d, (applyBizinfoUpdate old d).applicationTarget = none) ∧
    (∀ old t, (applyProcessLlmWrite old (some t)).applicationTarget =
        some (stringifyApplicationTarget t) ∧
      (applyProcessLlmWrite old (some t)).applicationTarget ≠ none) ∧
    (∀ old t d,
       (applyBizinfoUpdate (applyProcessLlmWrite old (some t)) d).applicationTarget = none) :=
  ⟨fun _ _ => rfl, fun _ t => ⟨rfl, by simp [applyProcessLlmWrite, processLlmWrite]⟩,
   fun _ _ _ => rfl⟩

/-! ## C6: extractors never throw and degrade to absent fields -/

/-- C6: the structural extractors of both sources are total functions of the
parsed tree (the embedding gives every JS operation its real, non-throwing
semantics, so extraction raises nothing on any input), and on documents with
no recognised structure — a bare text node of arbitrary content, or an
anonymous element wrapping one, which is what malformed or empty HTML loads
into — every extracted field is absent: both detail parsers return the
all-absent record, both list parsers return no items, and both pagination
scanners return page 1. -/
theorem extractors_total_and_degrade (s : String) :
    bizinfoParseDetailPage [Dom.text s] = {} ∧
    bizinfoParseDetailPage [Dom.elem "div" [] [Dom.text s]] = {} ∧
    kstartupParseDetailPage [Dom.text s] = {} ∧
    kstartupParseDetailPage [Dom.elem "div" [] [Dom.text s]] = {} ∧
    bizinfoParseListPage [Dom.text s] = [] ∧
    bizinfoParseListPage [Dom.elem "div" [] [Dom.text s]] = [] ∧
    kstartupParseListPage [Dom.text s] = [] ∧
    kstartupParseListPage [Dom.elem "div" [] [Dom.text s]] = [] ∧
    bizinfoGetTotalPages [Dom.text s] = 1 ∧
    bizinfoGetTotalPages [Dom.elem "div" [] [Dom.text s]] = 1 ∧
    kstartupGetTotalPages [Dom.text s] = 1 ∧
    kstartupGetTotalPages [Dom.elem "div" [] [Dom.text s]] = 1 := by
  refine ⟨?_, ?_, rfl, rfl, rfl, rfl, rfl, rfl, rfl, rfl, rfl, rfl⟩ <;>
    simp [bizinfoParseDetailPage, bizinfoMethod1, bizinfoMethod2, queryAll, docCtx,
          ctxOfChildren, ctxOfOne, selAnyMatches, selMatches, selTagCls, selTag, selCls,
          selTagAttrSub, tagOf, domHasClass, classList, getAttr, textOfSel, strTrim,
          listTrim, jsTruthyOptStr, jsTruthyOptJson, jsStrOrEmpty, List.filter]
